import Mathlib

/-!
# Slot generation and persistence of the booking backend

A shallow embedding of `backend/handlers/slot.go` (`GenerateSlots`,
`generateTimeSlots`, `saveSlotsToDB`) and of the records of
`backend/models/slot.go` and `backend/models/user.go` that it reads.

Conventions of the embedding:

* a `time.Time` is its instant, an integer number of nanoseconds since the Unix
  epoch; the presentation location a Go `Time` carries is passed separately
  where the code reads it (`Weekday`, `Format`, `ParseInLocation`, `AddDate`);
* a `time.Duration` is a signed 64-bit count of nanoseconds, so the products
  `time.Minute * time.Duration(n)` wrap modulo `2^64`; Go's `int` is 64 bits;
* a `*time.Location` is its `lookup`, which gives for each instant the offset
  east of UTC in force and the bounds of the period in which it is in force; the
  zone database that `time.LoadLocation` reads is a parameter, and the sample
  zones reproduce single transitions of that database;
* instants are unbounded integers (a Go `Time` spans about 292 billion years
  either way), and the date that `Format` prints and `ParseInLocation` reads
  back is kept as a day number, which is exact for years of four digits;
* loops take a fuel argument; `none` means that the fuel ran out.
-/

namespace Booking

/-! ## Machine integers and durations -/

/-- Two's complement wrap of an integer into the signed 64-bit range. -/
def wrapInt64 (x : Int) : Int := (x + 9223372036854775808) % 18446744073709551616 - 9223372036854775808

/-- Go `int` addition (64-bit, wrapping). -/
def intAdd (a b : Int) : Int := wrapInt64 (a + b)

/-- Nanoseconds in `time.Second`. -/
def Second : Int := 1000000000

/-- Nanoseconds in `time.Minute`. -/
def Minute : Int := 60 * Second

/-- Nanoseconds in `time.Hour`. -/
def Hour : Int := 60 * Minute

/-- Nanoseconds in `24 * time.Hour`. -/
def day : Int := 24 * Hour

/-- The expression `time.Minute * time.Duration(n)`: an int64 product. -/
def minutes (n : Int) : Int := wrapInt64 (Minute * wrapInt64 n)

/-! ## Locations -/

/-- A `*time.Location`: what `Location.lookup` returns for a Unix time in seconds,
namely the offset in seconds east of UTC in force at that instant and the start
and the end, in Unix seconds, of the period in which this offset is in force. -/
structure Location where
  lookup : Int → Int × Int × Int

/-- The start that `lookup` reports for a period without beginning. -/
def alpha : Int := -9223372036854775808

/-- The end that `lookup` reports for a period without end. -/
def omega : Int := 9223372036854775807

/-- A location whose offset never changes, as `time.FixedZone` builds it. -/
def fixedZone (offset : Int) : Location := ⟨fun _ => (offset, alpha, omega)⟩

/-- The location `time.UTC`. -/
def UTC : Location := fixedZone 0

/-- The function `time.LoadLocation`: the names `""` and `"UTC"` are UTC, every
other name is looked up in the zone database `tzdb`, `none` being an error. -/
def LoadLocation (tzdb : String → Option Location) (name : String) : Option Location :=
  if name = "" ∨ name = "UTC" then some UTC else tzdb name

/-- Wall-clock reading of instant `t` in `loc`, in nanoseconds since the epoch:
the instant plus the offset in force at it. -/
def wall (loc : Location) (t : Int) : Int := t + (loc.lookup (t / Second)).1 * Second

/-- Local calendar day of `t` in `loc`, as a day number since 1970-01-01; this is
the date that `t.Format("2006-01-02")` prints. -/
def localDay (loc : Location) (t : Int) : Int := wall loc t / day

/-- The method `Time.Weekday` with `time.Sunday = 0`; 1970-01-01 was a Thursday. -/
def Weekday (loc : Location) (t : Int) : Int := (localDay loc t + 4) % 7

/-- The method `Time.Truncate(24 * time.Hour)`: rounds the instant down to a
multiple of 24 hours since the zero time, that is to midnight UTC, whatever the
location of the value. -/
def Truncate24h (t : Int) : Int := t - t % day

/-- The function `time.Date` on a wall-clock reading `w` (nanoseconds since the
epoch, read as if in UTC): the offset is looked up at the reading itself, and
when the instant this gives lies outside the period found, it is looked up again
at that instant. A reading that no instant has, or that two instants have, is
resolved by this rule. -/
def fromWall (loc : Location) (w : Int) : Int :=
  let unix := w / Second
  let zone := loc.lookup unix
  let offset :=
    if zone.1 ≠ 0 then
      if unix - zone.1 < zone.2.1 ∨ unix - zone.1 ≥ zone.2.2 then (loc.lookup (unix - zone.1)).1
      else zone.1
    else zone.1
  (unix - offset) * Second + w % Second

/-- The call `t.AddDate(0, 0, 1)`: `time.Date` on the same wall clock of the next
calendar day. -/
def AddDate1 (loc : Location) (t : Int) : Int := fromWall loc (wall loc t + day)

/-! ## Records of `models/slot.go` -/

/-- The record `models.TimeSlot`. -/
structure TimeSlot where
  ID : Int
  StartTime : Int
  EndTime : Int
  IsAvailable : Bool
  ServiceID : Int
  ServiceName : String
  BusinessID : Int
deriving DecidableEq, Repr

/-- The record `models.GenerateSlotsRequest`. -/
structure GenerateSlotsRequest where
  ServiceID : Int
  StartDate : Int
  EndDate : Int
  StartTime : String
  EndTime : String
  Interval : Int
deriving DecidableEq, Repr

/-! ## Parsing the time of day -/

/-- Byte test `isDigit` of package `time`. -/
def isDigit (c : Char) : Bool := decide (48 ≤ c.toNat) && decide (c.toNat ≤ 57)

/-- Value of a decimal digit. -/
def digitVal (c : Char) : Int := (c.toNat : Int) - 48

/-- The helper `getnum` of package `time`: one or two leading digits, exactly two
when `fixed`. -/
def getnum (s : List Char) (fixed : Bool) : Option (Int × List Char) :=
  match s with
  | [] => none
  | [c0] => if isDigit c0 && !fixed then some (digitVal c0, []) else none
  | c0 :: c1 :: rest =>
    if !isDigit c0 then none
    else if !isDigit c1 then (if fixed then none else some (digitVal c0, c1 :: rest))
    else some (digitVal c0 * 10 + digitVal c1, rest)

/-- The helper `cutspace`: drops leading blanks. -/
def cutspace : List Char → List Char
  | [] => []
  | c :: rest => if c = ' ' then cutspace rest else c :: rest

/-- Consumes one literal character of the layout. -/
def skipChar (c : Char) : List Char → Option (List Char)
  | [] => none
  | x :: rest => if x = c then some rest else none

/-- Leading decimal digits of a text and the rest. -/
def spanDigits : List Char → List Char × List Char
  | [] => ([], [])
  | c :: rest => if isDigit c then ((spanDigits rest).1.cons c, (spanDigits rest).2) else ([], c :: rest)

/-- Decimal value of a digit string, most significant digit first. -/
def atoi (ds : List Char) : Int := ds.foldl (fun acc c => acc * 10 + digitVal c) 0

/-- A fractional second in the input that the layout does not have: a period or
comma followed by digits. The digits after the ninth are dropped, and the value
is scaled to nanoseconds (`parseNanoseconds`). -/
def fracSecond (v : List Char) : Int × List Char :=
  match v with
  | sep :: c :: rest =>
    if (sep = '.' ∨ sep = ',') ∧ isDigit c = true then
      let ds := (spanDigits (c :: rest)).1.take 9
      (atoi ds * 10 ^ (9 - ds.length), (spanDigits (c :: rest)).2)
    else (0, v)
  | _ => (0, v)

/-- What `time.ParseInLocation("2006-01-02 15:04:05", date + " " + text, loc)`
reads from `text`, the date part being a date that `Format` printed: the blank of
the layout swallows leading blanks, the hour has one or two digits, minute and
second two, an optional fractional second follows (after a period or, since
Go 1.17, a comma), and nothing may remain. The result is the time of day in nanoseconds since local midnight; `none` is a
parse error. -/
def parseClock (text : List Char) : Option Int :=
  match getnum (cutspace text) false with
  | none => none
  | some (hour, v1) =>
    if 24 ≤ hour then none else
    match skipChar ':' v1 with
    | none => none
    | some v2 =>
      match getnum v2 true with
      | none => none
      | some (min, v3) =>
        if 60 ≤ min then none else
        match skipChar ':' v3 with
        | none => none
        | some v4 =>
          match getnum v4 true with
          | none => none
          | some (sec, v5) =>
            if 60 ≤ sec then none else
            match fracSecond v5 with
            | (nsec, []) => some (hour * Hour + min * Minute + sec * Second + nsec)
            | (_, _ :: _) => none

/-- The normalisation of lines 103-111: when `strings.Split(s, ":")` has two
parts, that is when `s` holds exactly one colon, `":00"` is appended. -/
def withSeconds (s : String) : String :=
  if s.data.count ':' = 1 then s ++ ":00" else s

/-- The call `time.ParseInLocation` of lines 125 and 130 on the printed date of
local day number `dayNo` and the time text: `time.Date` on the wall-clock reading
made of that day and the time of day. -/
def ParseInLocation (loc : Location) (dayNo : Int) (text : String) : Option Int :=
  match parseClock text.data with
  | none => none
  | some clock => some (fromWall loc (dayNo * day + clock))

/-! ## `generateTimeSlots` -/

/-- Errors of `generateTimeSlots`. -/
inductive GenError where
  | invalidStartTime
  | invalidEndTime
deriving DecidableEq, Repr

/-- The database handle as `generateTimeSlots` uses it: the outcome of
`SELECT timezone FROM businesses WHERE id = $1` scanned into a string, `none`
when the scan returns an error. -/
structure DB where
  timezone : Int → Option String

/-- The inner loop of lines 135-155, walking one day's window from
`currentSlotTime`. -/
def slotLoop (req : GenerateSlotsRequest) (serviceDuration businessID endDateTime : Int) :
    Nat → Int → Option (List TimeSlot)
  | 0, _ => none
  | fuel + 1, currentSlotTime =>
    if currentSlotTime < endDateTime then
      let slotEnd := currentSlotTime + minutes serviceDuration
      if slotEnd > endDateTime then some []
      else
        match slotLoop req serviceDuration businessID endDateTime fuel
            (currentSlotTime + minutes (intAdd req.Interval serviceDuration)) with
        | none => none
        | some rest =>
          some ({ ID := 0, StartTime := currentSlotTime, EndTime := slotEnd, IsAvailable := true,
                  ServiceID := req.ServiceID, ServiceName := "", BusinessID := businessID } :: rest)
    else some []

/-- The outer loop of lines 113-158 over the days from `currentDate` up to
`endDate`; `n` is the fuel handed to each day's inner loop. -/
def dayLoop (loc : Location) (req : GenerateSlotsRequest) (serviceDuration businessID : Int)
    (startTimeStr endTimeStr : String) (endDate : Int) (n : Nat) :
    Nat → Int → Option (Except GenError (List TimeSlot))
  | 0, _ => none
  | fuel + 1, currentDate =>
    if currentDate < endDate then
      if Weekday loc currentDate = 0 then
        dayLoop loc req serviceDuration businessID startTimeStr endTimeStr endDate n fuel
          (AddDate1 loc currentDate)
      else
        match ParseInLocation loc (localDay loc currentDate) startTimeStr with
        | none => some (.error .invalidStartTime)
        | some startDateTime =>
          match ParseInLocation loc (localDay loc currentDate) endTimeStr with
          | none => some (.error .invalidEndTime)
          | some endDateTime =>
            match slotLoop req serviceDuration businessID endDateTime n startDateTime with
            | none => none
            | some daySlots =>
              match dayLoop loc req serviceDuration businessID startTimeStr endTimeStr endDate n fuel
                  (AddDate1 loc currentDate) with
              | none => none
              | some (.error e) => some (.error e)
              | some (.ok rest) => some (.ok (daySlots ++ rest))
    else some (.ok [])

/-- The location `generateTimeSlots` works in (lines 81-94): the zone of the
business row, UTC when the row cannot be read or the zone cannot be loaded. -/
def businessLocation (tzdb : String → Option Location) (db : DB) (businessID : Int) : Location :=
  let timezone := match db.timezone businessID with
    | some tz => tz
    | none => "UTC"
  match LoadLocation tzdb timezone with
  | some loc => loc
  | none => UTC

/-- The function `generateTimeSlots`; `tzdb` is the zone database that
`time.LoadLocation` reads and `fuel` bounds both loops. -/
def generateTimeSlots (tzdb : String → Option Location) (fuel : Nat) (req : GenerateSlotsRequest)
    (serviceDuration businessID : Int) (db : DB) : Option (Except GenError (List TimeSlot)) :=
  let loc := businessLocation tzdb db businessID
  let startDate := Truncate24h req.StartDate
  let endDate := Truncate24h req.EndDate + day
  let startTimeStr := withSeconds req.StartTime
  let endTimeStr := withSeconds req.EndTime
  dayLoop loc req serviceDuration businessID startTimeStr endTimeStr endDate fuel fuel startDate

/-- The slots the walk of one day is specified to give: slot `k` starts
`k * (serviceDuration + gapInterval)` minutes after the start of the window and
lasts `serviceDuration` minutes, for `k < n`. -/
def windowSlots (req : GenerateSlotsRequest) (serviceDuration businessID start : Int) (n : Nat) :
    List TimeSlot :=
  (List.range n).map fun k : Nat =>
    { ID := 0, StartTime := start + (k : Int) * ((serviceDuration + req.Interval) * Minute),
      EndTime := start + (k : Int) * ((serviceDuration + req.Interval) * Minute) +
        serviceDuration * Minute,
      IsAvailable := true, ServiceID := req.ServiceID, ServiceName := "", BusinessID := businessID }

/-! ## `saveSlotsToDB` -/

/-- A row of table `appointment_slots`: the columns of the `INSERT` of line 177
and the generated `id`. -/
structure SlotRow where
  id : Int
  start_time : Int
  end_time : Int
  is_available : Bool
  service_id : Int
  business_id : Int
deriving DecidableEq, Repr

/-- The row that the `INSERT` writes for a slot whose `ID` is the returned id. -/
def toRow (s : TimeSlot) : SlotRow :=
  { id := s.ID, start_time := s.StartTime, end_time := s.EndTime, is_available := s.IsAvailable,
    service_id := s.ServiceID, business_id := s.BusinessID }

/-- The database engine behind `*sql.DB`, outside the repository: whether
`db.Begin` succeeds on the committed rows, which id an `INSERT ... RETURNING id`
returns given the rows the transaction sees (`none` when it fails), and whether
`tx.Commit` succeeds given the committed rows and the rows the transaction
sees. -/
structure Engine where
  begin : List SlotRow → Bool
  insert : List SlotRow → TimeSlot → Option Int
  commit : List SlotRow → List SlotRow → Bool

/-- Errors of `saveSlotsToDB`, by the call that returned them. -/
inductive SaveError where
  | beginFailed
  | insertFailed
  | commitFailed
deriving DecidableEq, Repr

/-- The loop of lines 174-188: `visible` are the rows the transaction sees,
`createdSlots` the slots appended so far. -/
def insertLoop (eng : Engine) :
    List SlotRow → List TimeSlot → List TimeSlot → Except SaveError (List SlotRow × List TimeSlot)
  | visible, createdSlots, [] => .ok (visible, createdSlots)
  | visible, createdSlots, slot :: rest =>
    match eng.insert visible slot with
    | none => .error .insertFailed
    | some slotID =>
      insertLoop eng (visible ++ [toRow { slot with ID := slotID }])
        (createdSlots ++ [{ slot with ID := slotID }]) rest

/-- The function `saveSlotsToDB` on the committed rows `rows`: its return value
and the committed rows afterwards. The deferred `tx.Rollback()` discards what the
transaction wrote unless `tx.Commit()` succeeded. -/
def saveSlotsToDB (eng : Engine) (rows : List SlotRow) (slots : List TimeSlot) :
    Except SaveError (List TimeSlot) × List SlotRow :=
  if eng.begin rows then
    match insertLoop eng rows [] slots with
    | .error e => (.error e, rows)
    | .ok (visible, createdSlots) =>
      if eng.commit rows visible then (.ok createdSlots, visible) else (.error .commitFailed, rows)
  else (.error .beginFailed, rows)

/-! ## Sample inputs -/

/-- A zone database that knows no zone. -/
def noZones : String → Option Location := fun _ => none

/-- A zone database that knows `Asia/Karachi`, five hours east of UTC. -/
def karachiZones : String → Option Location :=
  fun name => if name = "Asia/Karachi" then some (fixedZone 18000) else none

/-- A database whose business rows carry zone `UTC`. -/
def dbUTC : DB := ⟨fun _ => some "UTC"⟩

/-- A database without business rows. -/
def dbEmpty : DB := ⟨fun _ => none⟩

/-- A database whose business rows carry zone `Asia/Karachi`. -/
def dbKarachi : DB := ⟨fun _ => some "Asia/Karachi"⟩

/-- The instant 2024-01-01T00:00:00Z, a Monday. -/
def jan1 : Int := 1704067200000000000

/-- Monday 2024-01-01, 09:00 to 11:00, no gap. -/
def reqMonday : GenerateSlotsRequest := ⟨7, jan1, jan1, "09:00", "11:00", 0⟩

/-- Monday 2024-01-01, 09:00 to 09:20, no gap. -/
def reqShort : GenerateSlotsRequest := ⟨7, jan1, jan1, "09:00", "09:20", 0⟩

/-- Monday 2024-01-01 and Tuesday 2024-01-02, 09:00 to 10:00, no gap. -/
def reqTwoDays : GenerateSlotsRequest := ⟨7, jan1, jan1 + day, "09:00", "10:00", 0⟩

/-- Saturday 2024-01-06 to Monday 2024-01-08, 09:00 to 10:00, no gap. -/
def reqWeekend : GenerateSlotsRequest := ⟨7, jan1 + 5 * day, jan1 + 7 * day, "09:00", "10:00", 0⟩

/-- Sunday 2024-01-07 only, with a start time that is no time of day. -/
def reqSundayBad : GenerateSlotsRequest := ⟨7, jan1 + 6 * day, jan1 + 6 * day, "soon", "10:00", 15⟩

/-- Monday 2024-01-01 with a start time that is no time of day. -/
def reqMondayBad : GenerateSlotsRequest := ⟨7, jan1, jan1, "soon", "10:00", 15⟩

/-- Monday 2024-01-01, 09:00 to 09:01, with a gap of 153722867 minutes. -/
def reqHugeGap : GenerateSlotsRequest := ⟨7, jan1, jan1, "09:00", "09:01", 153722867⟩

/-- Monday 2024-01-01, 09:00 to 09:02, with a gap of 307445734 minutes. -/
def reqWrapGap : GenerateSlotsRequest := ⟨7, jan1, jan1, "09:00", "09:02", 307445734⟩

/-- Start and end date 2024-01-01T19:00:00Z, which is midnight of Tuesday
2024-01-02 five hours east of UTC; 09:00 to 10:00, no gap. -/
def reqKarachi : GenerateSlotsRequest := ⟨7, jan1 + 19 * Hour, jan1 + 19 * Hour, "09:00", "10:00", 0⟩

/-- An unpersisted slot of service 7, business 3. -/
def slotAt (start stop : Int) : TimeSlot := ⟨0, start, stop, true, 7, "", 3⟩

/-- An engine that numbers rows from 1 and accepts everything. -/
def engOk : Engine := ⟨fun _ => true, fun visible _ => some (visible.length + 1), fun _ _ => true⟩

/-- An engine whose second insert into an empty table fails. -/
def engFailSecond : Engine :=
  ⟨fun _ => true, fun visible _ => if visible.length < 1 then some (visible.length + 1) else none,
   fun _ _ => true⟩

/-! ## The handler `GenerateSlots` -/

/-- The record `models.User`, as far as the handler reads it; `BusinessID` is a
pointer that may be nil. -/
structure User where
  ID : Int
  Email : String
  Role : String
  BusinessID : Option Int
deriving DecidableEq, Repr

/-- The fields of `models.Service` that the handler scans. -/
structure Service where
  ID : Int
  Name : String
  Duration : Int
deriving DecidableEq, Repr

/-- Outcome of the query of line 42 scanned into a service: a row, the error
`sql.ErrNoRows`, or another error. -/
inductive ServiceRow where
  | found (service : Service)
  | noRows
  | failed
deriving DecidableEq, Repr

/-- The instant of the zero `time.Time`, 0001-01-01T00:00:00Z. -/
def zeroTime : Int := -62135596800 * Second

/-- The body as the JSON decoder leaves it in `genReq`: the fields, a key that is
absent leaving the zero value of its field, and for each date whether the decoded
`time.Time` carries a location pointer. The pointer is nil when the key is absent
or the text ends in `Z`, and set when the text carries a numeric offset. -/
structure DecodedBody where
  genReq : GenerateSlotsRequest
  startDateHasLoc : Bool
  endDateHasLoc : Bool
deriving DecidableEq, Repr

/-- The call `c.ShouldBindJSON(&genReq)`: `body` is `none` when the body does not
decode. Every field is tagged `binding:"required"`, which the validator of gin
rejects when the field holds the zero value of its type; a `time.Time` is the
zero value when it is the zero instant and carries no location pointer. -/
def ShouldBindJSON (body : Option DecodedBody) : Option GenerateSlotsRequest :=
  match body with
  | none => none
  | some decoded =>
    if decoded.genReq.ServiceID ≠ 0 ∧
        ¬ (decoded.genReq.StartDate = zeroTime ∧ decoded.startDateHasLoc = false) ∧
        ¬ (decoded.genReq.EndDate = zeroTime ∧ decoded.endDateHasLoc = false) ∧
        decoded.genReq.StartTime ≠ "" ∧ decoded.genReq.EndTime ≠ "" ∧
        decoded.genReq.Interval ≠ 0 then some decoded.genReq
    else none

/-- What the handler answers: the HTTP status and, with 201, the created slots. -/
structure Response where
  status : Nat
  slots : List TimeSlot
deriving DecidableEq, Repr

/-- The handler `GenerateSlots` of lines 17-75. `user` is the value under key
`"user"` of the context, `services serviceID businessID` the outcome of the
service query, `rows` the committed rows of `appointment_slots`; the result is
the response and the committed rows afterwards, `none` when the fuel of the
synthesis ran out. -/
def GenerateSlots (tzdb : String → Option Location) (fuel : Nat) (eng : Engine)
    (services : Int → Int → ServiceRow) (db : DB) (rows : List SlotRow) (user : Option User)
    (body : Option DecodedBody) : Option (Response × List SlotRow) :=
  match user with
  | none => some (⟨401, []⟩, rows)
  | some currentUser =>
    match currentUser.BusinessID with
    | none => some (⟨403, []⟩, rows)
    | some businessID =>
      match ShouldBindJSON body with
      | none => some (⟨400, []⟩, rows)
      | some genReq =>
        match services genReq.ServiceID businessID with
        | .noRows => some (⟨404, []⟩, rows)
        | .failed => some (⟨500, []⟩, rows)
        | .found service =>
          match generateTimeSlots tzdb fuel genReq service.Duration businessID db with
          | none => none
          | some (.error _) => some (⟨400, []⟩, rows)
          | some (.ok generatedSlots) =>
            match saveSlotsToDB eng rows generatedSlots with
            | (.error _, rowsAfter) => some (⟨500, []⟩, rowsAfter)
            | (.ok createdSlots, rowsAfter) => some (⟨201, createdSlots⟩, rowsAfter)

/-- A text of the form `HH:MM`: two digits below 24, a colon, two digits below
60. -/
def wellFormedHHMM (t : String) : Bool :=
  match t.data with
  | [h1, h2, c, m1, m2] =>
    isDigit h1 && isDigit h2 && decide (c = ':') && isDigit m1 && isDigit m2 &&
      decide (digitVal h1 * 10 + digitVal h2 < 24) && decide (digitVal m1 * 10 + digitVal m2 < 60)
  | _ => false

/-! ## More sample inputs -/

/-- Monday 2024-01-01, 09:00 to 10:30, with a gap of 15 minutes. -/
def reqGap15 : GenerateSlotsRequest := ⟨7, jan1, jan1, "09:00", "10:30", 15⟩

/-- Monday 2024-01-01, 09:00 to 10:00, with a gap of 153722867 minutes. -/
def reqStepBack : GenerateSlotsRequest := ⟨7, jan1, jan1, "09:00", "10:00", 153722867⟩

/-- A user of business 3. -/
def owner : User := ⟨1, "owner@example.com", "admin", some 3⟩

/-- A service table that holds service 7 of business 3, lasting 30 minutes. -/
def oneService : Int → Int → ServiceRow :=
  fun serviceID businessID =>
    if serviceID = 7 ∧ businessID = 3 then .found ⟨7, "cut", 30⟩ else .noRows

/-- The slots that `reqGap15` gives for a service of 30 minutes, with the ids 1
and 2. -/
def createdGap15 : List TimeSlot :=
  [{ slotAt 1704099600000000000 1704101400000000000 with ID := 1 },
   { slotAt 1704102300000000000 1704104100000000000 with ID := 2 }]

/-- The business location keeps one offset over the range of a request: the
offset does not exceed a day and is the same at every second from two days
before midnight UTC of the start date to three days after midnight UTC of the
end date. -/
def offsetConstant (loc : Location) (offset : Int) (req : GenerateSlotsRequest) : Prop :=
  -86400 ≤ offset ∧ offset ≤ 86400 ∧
    ∀ sec : Int, Truncate24h req.StartDate / Second - 172800 ≤ sec →
      sec ≤ (Truncate24h req.EndDate + day) / Second + 172800 → (loc.lookup sec).1 = offset

/-! ## Sample zones with a transition -/

/-- Zone `Asia/Dhaka` around its transition of 2009-06-19T17:00:00Z, when the
offset went from six to seven hours and local 23:00 was followed by 00:00. -/
def dhaka : Location :=
  ⟨fun sec => if sec < 1245430800 then (21600, alpha, 1245430800) else (25200, 1245430800, omega)⟩

/-- Zone `America/Sao_Paulo` around its transition of 1997-10-06T03:00:00Z, when
the offset went from minus three to minus two hours at local midnight. -/
def saoPaulo : Location :=
  ⟨fun sec => if sec < 876106800 then (-10800, alpha, 876106800) else (-7200, 876106800, omega)⟩

/-- Zone `Asia/Jerusalem` around its transition of 2024-03-29T00:00:00Z, when the
offset went from two to three hours and local 02:00 was followed by 03:00. -/
def jerusalem : Location :=
  ⟨fun sec => if sec < 1711670400 then (7200, alpha, 1711670400) else (10800, 1711670400, omega)⟩

/-- Zone `Asia/Manila` around its transition of 1844-12-31T15:56:00Z, when the
offset went from minus 15:56 to plus 8:04 and the local day 1844-12-31 was
skipped. -/
def manila : Location :=
  ⟨fun sec =>
    if sec < -3944621040 then (-57360, alpha, -3944621040) else (29040, -3944621040, omega)⟩

/-- A zone database that holds the four sample zones. -/
def sampleZones : String → Option Location :=
  fun name =>
    if name = "Asia/Dhaka" then some dhaka
    else if name = "America/Sao_Paulo" then some saoPaulo
    else if name = "Asia/Jerusalem" then some jerusalem
    else if name = "Asia/Manila" then some manila
    else none

/-- A database whose business rows carry zone `Asia/Dhaka`. -/
def dbDhaka : DB := ⟨fun _ => some "Asia/Dhaka"⟩

/-- A database whose business rows carry zone `America/Sao_Paulo`. -/
def dbSaoPaulo : DB := ⟨fun _ => some "America/Sao_Paulo"⟩

/-- A database whose business rows carry zone `Asia/Jerusalem`. -/
def dbJerusalem : DB := ⟨fun _ => some "Asia/Jerusalem"⟩

/-- A database whose business rows carry zone `Asia/Manila`. -/
def dbManila : DB := ⟨fun _ => some "Asia/Manila"⟩

/-- Friday 2009-06-19 to Saturday 2009-06-20, 00:00 to 23:15, with a gap of 1370
minutes. -/
def reqDhaka : GenerateSlotsRequest :=
  ⟨7, 1245369600 * Second, 1245369600 * Second + day, "00:00", "23:15", 1370⟩

/-- Start and end date 1997-10-07T00:00:00Z, which is 22:00 of Monday 1997-10-06
in Sao Paulo; 00:00 to 00:15, with a gap of 5 minutes. -/
def reqSaoPaulo : GenerateSlotsRequest :=
  ⟨7, 876182400 * Second, 876182400 * Second, "00:00", "00:15", 5⟩

/-- Friday 2024-03-29, from 03:15 back to 02:30, with a gap of 5 minutes. -/
def reqJerusalem : GenerateSlotsRequest :=
  ⟨7, 1711670400 * Second, 1711670400 * Second, "03:15", "02:30", 5⟩

/-- Monday 2024-01-01 to Tuesday 2024-01-02, 09:00 to 10:00, with a gap of 15
minutes. -/
def reqJanuary : GenerateSlotsRequest := ⟨7, jan1, jan1 + day, "09:00", "10:00", 15⟩

/-- Start and end date 1844-12-31T00:00:00Z, 09:00 to 10:00, with a gap of 15
minutes. -/
def reqManila : GenerateSlotsRequest :=
  ⟨7, -3944678400 * Second, -3944678400 * Second, "09:00", "10:00", 15⟩

/-- A decoded body whose dates end in `Z`. -/
def bodyOf (genReq : GenerateSlotsRequest) : DecodedBody := ⟨genReq, false, false⟩


/-! ## Facts about the inner loop -/

theorem wrapInt64_of_range (x : Int) (h1 : -9223372036854775808 ≤ x) (h2 : x < 9223372036854775808) :
    wrapInt64 x = x := by
  unfold wrapInt64
  omega

theorem minutes_of_range (n : Int) (h1 : -9223372036854775808 ≤ Minute * n)
    (h2 : Minute * n < 9223372036854775808) : minutes n = n * Minute := by
  unfold minutes
  have hM : Minute = 60000000000 := by decide
  rw [hM] at h1 h2 ⊢
  rw [wrapInt64_of_range n (by omega) (by omega), wrapInt64_of_range _ h1 h2]
  ring

/-- Every slot of a day's walk carries the fields of lines 145-151 and lies in
the window. -/
theorem slotLoop_mem (req : GenerateSlotsRequest) (d b e : Int) :
    ∀ (fuel : Nat) (cur : Int) (l : List TimeSlot),
      slotLoop req d b e fuel cur = some l →
      ∀ s ∈ l, s.EndTime = s.StartTime + minutes d ∧ s.StartTime < e ∧ s.EndTime ≤ e ∧
        s.ID = 0 ∧ s.IsAvailable = true ∧ s.ServiceID = req.ServiceID ∧ s.BusinessID = b := by
  intro fuel
  induction fuel with
  | zero => intro cur l h; simp [slotLoop] at h
  | succ k ih =>
    intro cur l h s hs
    simp only [slotLoop] at h
    split at h
    · split at h
      · cases h; cases hs
      · cases hrec : slotLoop req d b e k (cur + minutes (intAdd req.Interval d)) with
        | none => rw [hrec] at h; cases h
        | some rest =>
          rw [hrec] at h
          cases h
          rcases List.mem_cons.1 hs with rfl | hs
          · refine ⟨rfl, ?_, ?_, rfl, rfl, rfl, rfl⟩
            · assumption
            · show cur + minutes d ≤ e
              omega
          · exact ih _ _ hrec s hs
    · cases h; cases hs

/-- One step of the outer loop on a successful run. -/
theorem dayLoop_ok_step (loc : Location) (req : GenerateSlotsRequest) (d b : Int)
    (st et : String) (endDate : Int) (n fuel : Nat) (cur : Int) (l : List TimeSlot)
    (h : dayLoop loc req d b st et endDate n (fuel + 1) cur = some (.ok l)) :
    (¬ cur < endDate ∧ l = []) ∨
    (cur < endDate ∧ Weekday loc cur = 0 ∧
      dayLoop loc req d b st et endDate n fuel (AddDate1 loc cur) = some (.ok l)) ∨
    (cur < endDate ∧ Weekday loc cur ≠ 0 ∧ ∃ sdt edt daySlots rest,
      ParseInLocation loc (localDay loc cur) st = some sdt ∧
      ParseInLocation loc (localDay loc cur) et = some edt ∧
      slotLoop req d b edt n sdt = some daySlots ∧
      dayLoop loc req d b st et endDate n fuel (AddDate1 loc cur) = some (.ok rest) ∧
      l = daySlots ++ rest) := by
  simp only [dayLoop] at h
  by_cases hc : cur < endDate
  · rw [if_pos hc] at h
    by_cases hw : Weekday loc cur = 0
    · rw [if_pos hw] at h
      exact Or.inr (Or.inl ⟨hc, hw, h⟩)
    · rw [if_neg hw] at h
      refine Or.inr (Or.inr ⟨hc, hw, ?_⟩)
      cases hs : ParseInLocation loc (localDay loc cur) st with
      | none => rw [hs] at h; cases h
      | some sdt =>
        cases he : ParseInLocation loc (localDay loc cur) et with
        | none => rw [hs, he] at h; cases h
        | some edt =>
          cases hl : slotLoop req d b edt n sdt with
          | none => rw [hs, he] at h; simp only [hl] at h; cases h
          | some daySlots =>
            cases hr : dayLoop loc req d b st et endDate n fuel (AddDate1 loc cur) with
            | none => rw [hs, he] at h; simp only [hl, hr] at h; cases h
            | some r =>
              cases r with
              | error e => rw [hs, he] at h; simp only [hl, hr] at h; cases h
              | ok rest =>
                rw [hs, he] at h
                simp only [hl, hr] at h
                cases h
                exact ⟨sdt, edt, daySlots, rest, rfl, rfl, hl, rfl, rfl⟩
  · rw [if_neg hc] at h
    cases h
    exact Or.inl ⟨hc, rfl⟩

/-- A property that every day's walk gives to its slots holds of every slot of a
successful run. -/
theorem dayLoop_forall (loc : Location) (req : GenerateSlotsRequest) (d b : Int)
    (st et : String) (endDate : Int) (n : Nat) (P : TimeSlot → Prop)
    (hP : ∀ cur sdt edt daySlots, cur < endDate → Weekday loc cur ≠ 0 →
      ParseInLocation loc (localDay loc cur) st = some sdt →
      ParseInLocation loc (localDay loc cur) et = some edt →
      slotLoop req d b edt n sdt = some daySlots → ∀ s ∈ daySlots, P s) :
    ∀ (fuel : Nat) (cur : Int) (l : List TimeSlot),
      dayLoop loc req d b st et endDate n fuel cur = some (.ok l) → ∀ s ∈ l, P s := by
  intro fuel
  induction fuel with
  | zero => intro cur l h; simp [dayLoop] at h
  | succ k ih =>
    intro cur l h s hs
    rcases dayLoop_ok_step loc req d b st et endDate n k cur l h with
      ⟨_, rfl⟩ | ⟨_, _, hr⟩ | ⟨hc, hw, sdt, edt, daySlots, rest, h1, h2, h3, h4, rfl⟩
    · cases hs
    · exact ih _ _ hr s hs
    · rcases List.mem_append.1 hs with hs | hs
      · exact hP cur sdt edt daySlots hc hw h1 h2 h3 s hs
      · exact ih _ _ h4 s hs

/-! ## Facts about the parser -/

theorem digitVal_bounds (c : Char) (h : isDigit c = true) : 0 ≤ digitVal c ∧ digitVal c ≤ 9 := by
  unfold isDigit at h
  unfold digitVal
  simp only [Bool.and_eq_true, decide_eq_true_eq] at h
  omega

theorem getnum_nonneg (s : List Char) (fixed : Bool) (v : Int) (r : List Char)
    (h : getnum s fixed = some (v, r)) : 0 ≤ v := by
  unfold getnum at h
  split at h
  · cases h
  · rename_i c0
    by_cases hd : isDigit c0 = true
    · have := digitVal_bounds c0 hd
      split at h
      · cases h; omega
      · cases h
    · simp [hd] at h
  · rename_i c0 c1 rest
    by_cases hd0 : isDigit c0 = true
    · by_cases hd1 : isDigit c1 = true
      · have := digitVal_bounds c0 hd0
        have := digitVal_bounds c1 hd1
        simp [hd0, hd1] at h
        omega
      · have := digitVal_bounds c0 hd0
        simp [hd0, hd1] at h
        omega
    · simp [hd0] at h

theorem spanDigits_fst_digits : ∀ (v : List Char), ∀ c ∈ (spanDigits v).1, isDigit c = true := by
  intro v
  induction v with
  | nil => intro c hc; simp [spanDigits] at hc
  | cons x rest ih =>
    intro c hc
    unfold spanDigits at hc
    by_cases hx : isDigit x = true
    · rw [if_pos hx] at hc
      rcases List.mem_cons.1 hc with rfl | hc
      · exact hx
      · exact ih c hc
    · rw [if_neg hx] at hc
      cases hc

theorem foldl_digits_bound : ∀ (ds : List Char) (acc : Int), (∀ c ∈ ds, isDigit c = true) → 0 ≤ acc →
    0 ≤ ds.foldl (fun a c => a * 10 + digitVal c) acc ∧
    ds.foldl (fun a c => a * 10 + digitVal c) acc + 1 ≤ (acc + 1) * 10 ^ ds.length := by
  intro ds
  induction ds with
  | nil => intro acc _ h; simp; exact h
  | cons x rest ih =>
    intro acc hd hacc
    have hx := digitVal_bounds x (hd x (List.mem_cons_self _ _))
    have hrec := ih (acc * 10 + digitVal x) (fun c hc => hd c (List.mem_cons_of_mem _ hc)) (by omega)
    refine ⟨hrec.1, ?_⟩
    simp only [List.foldl_cons, List.length_cons]
    have hp : (0 : Int) ≤ 10 ^ rest.length := by positivity
    calc List.foldl (fun a c => a * 10 + digitVal c) (acc * 10 + digitVal x) rest + 1
        ≤ (acc * 10 + digitVal x + 1) * 10 ^ rest.length := hrec.2
      _ ≤ ((acc + 1) * 10) * 10 ^ rest.length := by
          apply mul_le_mul_of_nonneg_right _ hp
          omega
      _ = (acc + 1) * 10 ^ (rest.length + 1) := by ring

theorem fracSecond_bounds (v : List Char) : 0 ≤ (fracSecond v).1 ∧ (fracSecond v).1 < Second := by
  have hS : Second = 1000000000 := rfl
  unfold fracSecond
  split
  · rename_i sep c rest
    split
    · simp only
      have hdig : ∀ x ∈ (spanDigits (c :: rest)).1.take 9, isDigit x = true :=
        fun x hx => spanDigits_fst_digits _ x (List.mem_of_mem_take hx)
      have hlen : ((spanDigits (c :: rest)).1.take 9).length ≤ 9 := by
        simp [List.length_take]
      have hb := foldl_digits_bound _ 0 hdig (le_refl 0)
      generalize (spanDigits (c :: rest)).1.take 9 = ds at hdig hlen hb
      unfold atoi
      generalize ds.foldl (fun a c => a * 10 + digitVal c) 0 = a at hb
      have hp : (0 : Int) < 10 ^ (9 - ds.length) := by positivity
      have hsplit : (10 : Int) ^ ds.length * 10 ^ (9 - ds.length) = 1000000000 := by
        rw [← pow_add]
        have : ds.length + (9 - ds.length) = 9 := by omega
        rw [this]; norm_num
      refine ⟨mul_nonneg hb.1 (le_of_lt hp), ?_⟩
      rw [hS]
      have h1 : (a + 1) * 10 ^ (9 - ds.length) ≤ 10 ^ ds.length * 10 ^ (9 - ds.length) := by
        apply mul_le_mul_of_nonneg_right _ (le_of_lt hp)
        simpa using hb.2
      rw [hsplit] at h1
      nlinarith
    · simp [hS]
  · simp [hS]

/-- A parsed time of day lies within one day. -/
theorem parseClock_bounds (text : List Char) (c : Int) (h : parseClock text = some c) :
    0 ≤ c ∧ c < day := by
  unfold parseClock at h
  split at h
  · cases h
  · rename_i hour v1 hh
    split at h
    · cases h
    · split at h
      · cases h
      · rename_i v2 _
        split at h
        · cases h
        · rename_i min v3 hm
          split at h
          · cases h
          · split at h
            · cases h
            · rename_i v4 _
              split at h
              · cases h
              · rename_i sec v5 hs
                split at h
                · cases h
                · have hf := fracSecond_bounds v5
                  have h0 := getnum_nonneg _ _ _ _ hh
                  have h1 := getnum_nonneg _ _ _ _ hm
                  have h2 := getnum_nonneg _ _ _ _ hs
                  split at h
                  · rename_i nsec hfe
                    rw [hfe] at hf
                    cases h
                    simp only [day, Hour, Minute, Second] at hf ⊢
                    omega
                  · cases h

/-! ## Facts about locations -/

theorem wall_of_offset (loc : Location) (offset t : Int)
    (h : (loc.lookup (t / Second)).1 = offset) : wall loc t = t + offset * Second := by
  unfold wall
  rw [h]

/-- Where the offset is `offset` both at the wall-clock reading and at the instant
it gives, `time.Date` subtracts that offset. -/
theorem fromWall_of_offset (loc : Location) (offset w : Int)
    (h1 : (loc.lookup (w / Second)).1 = offset)
    (h2 : (loc.lookup (w / Second - offset)).1 = offset) :
    fromWall loc w = w - offset * Second := by
  have hS : Second = 1000000000 := rfl
  have hoff : (if (loc.lookup (w / Second)).1 ≠ 0 then
      if w / Second - (loc.lookup (w / Second)).1 < (loc.lookup (w / Second)).2.1 ∨
          w / Second - (loc.lookup (w / Second)).1 ≥ (loc.lookup (w / Second)).2.2 then
        (loc.lookup (w / Second - (loc.lookup (w / Second)).1)).1
      else (loc.lookup (w / Second)).1
    else (loc.lookup (w / Second)).1) = offset := by
    rw [h1]
    split
    · split
      · exact h2
      · rfl
    · rfl
  unfold fromWall
  simp only [hoff]
  rw [hS]
  omega

theorem wall_fixedZone (offset t : Int) : wall (fixedZone offset) t = t + offset * Second := rfl

theorem fromWall_fixedZone (offset w : Int) : fromWall (fixedZone offset) w = w - offset * Second :=
  fromWall_of_offset (fixedZone offset) offset w rfl rfl

theorem AddDate1_fixedZone (offset t : Int) : AddDate1 (fixedZone offset) t = t + day := by
  unfold AddDate1
  rw [fromWall_fixedZone, wall_fixedZone]
  ring

/-- In a location whose offset never changes the instant `ParseInLocation` returns
lies on the local day it was given. -/
theorem ParseInLocation_bounds (offset dayNo : Int) (text : String) (t : Int)
    (h : ParseInLocation (fixedZone offset) dayNo text = some t) :
    dayNo * day ≤ wall (fixedZone offset) t ∧ wall (fixedZone offset) t < (dayNo + 1) * day := by
  unfold ParseInLocation at h
  cases hc : parseClock text.data with
  | none => rw [hc] at h; cases h
  | some c =>
    rw [hc] at h
    have hb := parseClock_bounds _ _ hc
    simp only [Option.some.injEq] at h
    rw [fromWall_fixedZone] at h
    rw [wall_fixedZone, ← h]
    constructor <;> linarith

theorem localDay_of_bounds (loc : Location) (dayNo t : Int)
    (h1 : dayNo * day ≤ wall loc t) (h2 : wall loc t < (dayNo + 1) * day) : localDay loc t = dayNo := by
  unfold localDay
  have hd : day = 86400000000000 := by decide
  rw [hd] at h1 h2 ⊢
  omega

theorem localDay_AddDate1 (offset t : Int) :
    localDay (fixedZone offset) (AddDate1 (fixedZone offset) t) =
      localDay (fixedZone offset) t + 1 := by
  rw [AddDate1_fixedZone]
  unfold localDay
  rw [wall_fixedZone, wall_fixedZone]
  have hd : day = 86400000000000 := by decide
  rw [hd]
  omega

theorem localDay_bounds (loc : Location) (t : Int) :
    localDay loc t * day ≤ wall loc t ∧ wall loc t < (localDay loc t + 1) * day := by
  unfold localDay
  have hd : day = 86400000000000 := by decide
  rw [hd]
  omega

/-! ## More on the inner loop -/

/-- A walk whose step is not positive returns only when it emits nothing. -/
theorem slotLoop_nil_of_step_nonpos (req : GenerateSlotsRequest) (d b e : Int)
    (hstep : minutes (intAdd req.Interval d) ≤ 0) :
    ∀ (fuel : Nat) (cur : Int) (l : List TimeSlot), slotLoop req d b e fuel cur = some l → l = [] := by
  have hnone : ∀ (fuel : Nat) (cur : Int), cur < e → cur + minutes d ≤ e →
      slotLoop req d b e fuel cur = none := by
    intro fuel
    induction fuel with
    | zero => intro cur _ _; rfl
    | succ k ih =>
      intro cur h1 h2
      simp only [slotLoop]
      rw [if_pos h1, if_neg (by omega)]
      rw [ih (cur + minutes (intAdd req.Interval d)) (by omega) (by omega)]
  intro fuel cur l h
  by_cases h1 : cur < e
  · by_cases h2 : cur + minutes d ≤ e
    · rw [hnone fuel cur h1 h2] at h; cases h
    · cases fuel with
      | zero => simp [slotLoop] at h
      | succ k =>
        simp only [slotLoop] at h
        rw [if_pos h1, if_pos (by omega)] at h
        cases h; rfl
  · cases fuel with
    | zero => simp [slotLoop] at h
    | succ k =>
      simp only [slotLoop] at h
      rw [if_neg h1] at h
      cases h; rfl

/-- No slot of a walk starts before the walk does. -/
theorem slotLoop_lower (req : GenerateSlotsRequest) (d b e : Int) :
    ∀ (fuel : Nat) (cur : Int) (l : List TimeSlot), slotLoop req d b e fuel cur = some l →
      ∀ s ∈ l, cur ≤ s.StartTime := by
  by_cases hstep : minutes (intAdd req.Interval d) ≤ 0
  · intro fuel cur l h s hs
    rw [slotLoop_nil_of_step_nonpos req d b e hstep fuel cur l h] at hs
    cases hs
  · intro fuel
    induction fuel with
    | zero => intro cur l h; simp [slotLoop] at h
    | succ k ih =>
      intro cur l h s hs
      simp only [slotLoop] at h
      split at h
      · split at h
        · cases h; cases hs
        · cases hrec : slotLoop req d b e k (cur + minutes (intAdd req.Interval d)) with
          | none => rw [hrec] at h; cases h
          | some rest =>
            rw [hrec] at h
            cases h
            rcases List.mem_cons.1 hs with rfl | hs
            · exact le_refl _
            · have := ih _ _ hrec s hs
              omega
      · cases h; cases hs

/-- Neighbours in a day's walk: the next slot starts one step after the previous
one, and the first slot starts where the walk starts. -/
theorem slotLoop_chain (req : GenerateSlotsRequest) (d b e : Int) :
    ∀ (fuel : Nat) (cur : Int) (l : List TimeSlot), slotLoop req d b e fuel cur = some l →
      List.Chain' (fun x y : TimeSlot => y.StartTime = x.StartTime + minutes (intAdd req.Interval d)) l ∧
      ∀ s ∈ l.head?, s.StartTime = cur := by
  intro fuel
  induction fuel with
  | zero => intro cur l h; simp [slotLoop] at h
  | succ k ih =>
    intro cur l h
    simp only [slotLoop] at h
    split at h
    · split at h
      · cases h; simp
      · cases hrec : slotLoop req d b e k (cur + minutes (intAdd req.Interval d)) with
        | none => rw [hrec] at h; cases h
        | some rest =>
          rw [hrec] at h
          cases h
          have := ih _ _ hrec
          refine ⟨?_, by simp⟩
          rw [List.chain'_cons']
          refine ⟨?_, this.1⟩
          intro y hy
          exact this.2 y hy
    · cases h; simp

/-! ## Neighbouring slots of a whole run -/

/-- In a location whose offset never changes, a relation that holds between
neighbours inside one day's walk and between a slot of one local day and any slot
of a later local day holds between all neighbours of a successful run; no slot
lies before the local day of the cursor. -/
theorem dayLoop_chain (offset : Int) (req : GenerateSlotsRequest) (d b : Int)
    (st et : String) (endDate : Int) (n : Nat) (R : TimeSlot → TimeSlot → Prop)
    (hsame : ∀ (D : Int) (x y : TimeSlot), D * day ≤ wall (fixedZone offset) x.StartTime →
      wall (fixedZone offset) x.StartTime < (D + 1) * day → x.EndTime = x.StartTime + minutes d →
      wall (fixedZone offset) x.EndTime < (D + 1) * day →
      y.StartTime = x.StartTime + minutes (intAdd req.Interval d) →
      wall (fixedZone offset) y.StartTime < (D + 1) * day → R x y)
    (hcross : ∀ (D : Int) (x y : TimeSlot), D * day ≤ wall (fixedZone offset) x.StartTime →
      wall (fixedZone offset) x.StartTime < (D + 1) * day → x.EndTime = x.StartTime + minutes d →
      wall (fixedZone offset) x.EndTime < (D + 1) * day → (D + 1) * day ≤ wall (fixedZone offset) y.StartTime → R x y) :
    ∀ (fuel : Nat) (cur : Int) (l : List TimeSlot),
      dayLoop (fixedZone offset) req d b st et endDate n fuel cur = some (.ok l) →
      List.Chain' R l ∧ ∀ s ∈ l, localDay (fixedZone offset) cur * day ≤ wall (fixedZone offset) s.StartTime := by
  have hday : (0 : Int) < day := by decide
  intro fuel
  induction fuel with
  | zero => intro cur l h; simp [dayLoop] at h
  | succ k ih =>
    intro cur l h
    rcases dayLoop_ok_step (fixedZone offset) req d b st et endDate n k cur l h with
      ⟨_, rfl⟩ | ⟨_, _, hr⟩ | ⟨_, hw, sdt, edt, daySlots, rest, h1, h2, h3, h4, rfl⟩
    · simp
    · have := ih _ _ hr
      rw [localDay_AddDate1] at this
      refine ⟨this.1, fun s hs => ?_⟩
      have := this.2 s hs
      nlinarith
    · have hrest := ih _ _ h4
      rw [localDay_AddDate1] at hrest
      have hsb := ParseInLocation_bounds _ _ _ _ h1
      have heb := ParseInLocation_bounds _ _ _ _ h2
      have hmem := slotLoop_mem req d b edt n sdt daySlots h3
      have hlow := slotLoop_lower req d b edt n sdt daySlots h3
      have hch := (slotLoop_chain req d b edt n sdt daySlots h3).1
      -- facts about one slot of the day
      have hfact : ∀ x ∈ daySlots, localDay (fixedZone offset) cur * day ≤ wall (fixedZone offset) x.StartTime ∧
          wall (fixedZone offset) x.StartTime < (localDay (fixedZone offset) cur + 1) * day ∧
          x.EndTime = x.StartTime + minutes d ∧
          wall (fixedZone offset) x.EndTime < (localDay (fixedZone offset) cur + 1) * day := by
        intro x hx
        have hm := hmem x hx
        have hl := hlow x hx
        simp only [wall_fixedZone] at hsb heb ⊢
        refine ⟨by linarith, by linarith, hm.1, by linarith⟩
      refine ⟨?_, ?_⟩
      · apply List.Chain'.append
        · rw [List.Chain'.iff_mem] at hch
          refine hch.imp ?_
          intro x y ⟨hx, hy, hxy⟩
          have fx := hfact x hx
          have fy := hfact y hy
          exact hsame _ x y fx.1 fx.2.1 fx.2.2.1 fx.2.2.2 hxy fy.2.1
        · exact hrest.1
        · intro x hx y hy
          have fx := hfact x (List.mem_of_mem_getLast? hx)
          have hyl := hrest.2 y (List.mem_of_mem_head? hy)
          exact hcross _ x y fx.1 fx.2.1 fx.2.2.1 fx.2.2.2 hyl
      · intro s hs
        rcases List.mem_append.1 hs with hs | hs
        · exact (hfact s hs).1
        · have := hrest.2 s hs
          nlinarith

/-! ## Locations whose offset is constant over the range of a request -/

/-- Where the offset of a location is `offset` from two days before `startDate`
to two days after `endDate`, the outer loop from a cursor not before `startDate`
runs as it does in the location with constant offset `offset`. -/
theorem dayLoop_eq_fixedZone (loc : Location) (offset : Int) (req : GenerateSlotsRequest)
    (d b : Int) (st et : String) (startDate endDate : Int) (n : Nat)
    (ho1 : -86400 ≤ offset) (ho2 : offset ≤ 86400)
    (hconst : ∀ sec : Int, startDate / Second - 172800 ≤ sec →
      sec ≤ endDate / Second + 172800 → (loc.lookup sec).1 = offset) :
    ∀ (fuel : Nat) (cur : Int), startDate ≤ cur →
      dayLoop loc req d b st et endDate n fuel cur =
        dayLoop (fixedZone offset) req d b st et endDate n fuel cur := by
  have hS : Second = 1000000000 := rfl
  have hD : day = 86400000000000 := by decide
  rw [hS] at hconst
  intro fuel
  induction fuel with
  | zero => intro cur _; rfl
  | succ k ih =>
    intro cur hcur
    rw [dayLoop, dayLoop]
    by_cases hc : cur < endDate
    · have hw : wall loc cur = wall (fixedZone offset) cur := by
        rw [wall_fixedZone]
        apply wall_of_offset
        apply hconst
        · rw [hS]; omega
        · rw [hS]; omega
      have e2 : localDay loc cur = localDay (fixedZone offset) cur := by
        unfold localDay
        rw [hw]
      have e1 : Weekday loc cur = Weekday (fixedZone offset) cur := by
        unfold Weekday
        rw [e2]
      have e3 : AddDate1 loc cur = AddDate1 (fixedZone offset) cur := by
        rw [AddDate1_fixedZone]
        unfold AddDate1
        rw [hw, wall_fixedZone]
        rw [fromWall_of_offset loc offset _ (hconst _ (by rw [hS, hD]; omega) (by rw [hS, hD]; omega))
          (hconst _ (by rw [hS, hD]; omega) (by rw [hS, hD]; omega))]
        ring
      have e4 : ∀ text : String, ParseInLocation loc (localDay (fixedZone offset) cur) text =
          ParseInLocation (fixedZone offset) (localDay (fixedZone offset) cur) text := by
        intro text
        unfold ParseInLocation
        cases hp : parseClock text.data with
        | none => rfl
        | some c =>
          have hb := parseClock_bounds _ _ hp
          have hl := localDay_bounds (fixedZone offset) cur
          rw [wall_fixedZone] at hl
          simp only [Option.some.injEq]
          rw [fromWall_fixedZone]
          generalize localDay (fixedZone offset) cur = D at hl
          rw [hS, hD] at hl
          rw [hD] at hb
          apply fromWall_of_offset
          · apply hconst
            · rw [hS, hD]; omega
            · rw [hS, hD]; omega
          · apply hconst
            · rw [hS, hD]; omega
            · rw [hS, hD]; omega
      have e5 := ih (AddDate1 (fixedZone offset) cur) (by rw [AddDate1_fixedZone, hD]; omega)
      simp only [e1, e2, e3, e4, e5]
    · rw [if_neg hc, if_neg hc]

/-- A run in a location whose offset is constant over the range of the request
is the run in the location with that constant offset. -/
theorem generateTimeSlots_eq_fixedZone (tzdb : String → Option Location) (fuel : Nat)
    (req : GenerateSlotsRequest) (serviceDuration businessID : Int) (db : DB) (offset : Int)
    (hzone : offsetConstant (businessLocation tzdb db businessID) offset req) :
    generateTimeSlots tzdb fuel req serviceDuration businessID db =
      dayLoop (fixedZone offset) req serviceDuration businessID (withSeconds req.StartTime)
        (withSeconds req.EndTime) (Truncate24h req.EndDate + day) fuel fuel
        (Truncate24h req.StartDate) := by
  unfold generateTimeSlots
  exact dayLoop_eq_fixedZone _ offset req serviceDuration businessID _ _ (Truncate24h req.StartDate)
    _ fuel hzone.1 hzone.2.1 hzone.2.2 fuel _ (le_refl _)

/-- In a location whose offset never changes every slot of a run starts less
than a day before the cursor and less than a day after the end date, on a day
that is not a Sunday. -/
theorem dayLoop_fixedZone_slots (offset : Int) (req : GenerateSlotsRequest) (d b : Int)
    (st et : String) (endDate : Int) (n : Nat) (fuel : Nat) (cur : Int) (l : List TimeSlot)
    (h : dayLoop (fixedZone offset) req d b st et endDate n fuel cur = some (.ok l)) :
    ∀ s ∈ l, cur - day < s.StartTime ∧ s.StartTime < endDate + day ∧
      Weekday (fixedZone offset) s.StartTime ≠ 0 := by
  have hD : day = 86400000000000 := by decide
  intro s hs
  have hlow := (dayLoop_chain offset req d b st et endDate n (fun _ _ => True)
    (fun _ _ _ _ _ _ _ _ _ => trivial) (fun _ _ _ _ _ _ _ _ => trivial) fuel cur l h).2 s hs
  have hcb := localDay_bounds (fixedZone offset) cur
  rw [wall_fixedZone] at hlow hcb
  refine ⟨by rw [hD] at hlow hcb ⊢; omega, ?_⟩
  refine dayLoop_forall (fixedZone offset) req d b st et endDate n
    (fun s => s.StartTime < endDate + day ∧ Weekday (fixedZone offset) s.StartTime ≠ 0) ?_
    fuel cur l h s hs
  intro c sdt edt daySlots hc hw h1 h2 hl x hx
  have hsb := ParseInLocation_bounds _ _ _ _ h1
  have heb := ParseInLocation_bounds _ _ _ _ h2
  have hm := slotLoop_mem req d b edt n sdt daySlots hl x hx
  have hlo := slotLoop_lower req d b edt n sdt daySlots hl x hx
  have hb := localDay_bounds (fixedZone offset) c
  rw [wall_fixedZone] at hsb heb hb
  have hday : localDay (fixedZone offset) x.StartTime = localDay (fixedZone offset) c := by
    apply localDay_of_bounds
    · rw [wall_fixedZone]; linarith
    · rw [wall_fixedZone]; linarith
  constructor
  · show x.StartTime < endDate + day
    linarith
  · show Weekday (fixedZone offset) x.StartTime ≠ 0
    unfold Weekday at hw ⊢
    rw [hday]
    exact hw

/-- Where the offset of the business location is constant over the range of the
request, it is in force at every instant less than a day before midnight UTC of
the start date and less than two days after midnight UTC of the end date. -/
theorem wall_of_offsetConstant (loc : Location) (offset : Int) (req : GenerateSlotsRequest)
    (hzone : offsetConstant loc offset req) (t : Int)
    (h1 : Truncate24h req.StartDate - day < t) (h2 : t < Truncate24h req.EndDate + day + day) :
    wall loc t = wall (fixedZone offset) t := by
  have hS : Second = 1000000000 := rfl
  have hD : day = 86400000000000 := by decide
  rw [wall_fixedZone]
  apply wall_of_offset
  apply hzone.2.2
  · rw [hS]; rw [hD] at h1; omega
  · rw [hS, hD]; rw [hD] at h2; omega

/-! ## C1: every slot lasts the service duration -/

/-- C1, as amended: when `serviceDuration` minutes fit a `time.Duration` (the
product `time.Minute * serviceDuration` stays within 64 bits), every slot of a
successful run of `generateTimeSlots` ends exactly `serviceDuration` minutes
after it starts, for every request, zone database and business row. -/
theorem slot_length_eq_duration (tzdb : String → Option Location) (fuel : Nat)
    (req : GenerateSlotsRequest) (serviceDuration businessID : Int) (db : DB)
    (slots : List TimeSlot)
    (hlo : -9223372036854775808 ≤ Minute * serviceDuration)
    (hhi : Minute * serviceDuration < 9223372036854775808)
    (h : generateTimeSlots tzdb fuel req serviceDuration businessID db = some (.ok slots)) :
    ∀ s ∈ slots, s.EndTime - s.StartTime = serviceDuration * Minute := by
  unfold generateTimeSlots at h
  refine dayLoop_forall _ req serviceDuration businessID _ _ _ fuel
    (fun s => s.EndTime - s.StartTime = serviceDuration * Minute) ?_ fuel _ slots h
  intro cur sdt edt daySlots _ _ _ _ hl s hs
  have := (slotLoop_mem req serviceDuration businessID edt fuel sdt daySlots hl s hs).1
  rw [minutes_of_range serviceDuration hlo hhi] at this
  show s.EndTime - s.StartTime = serviceDuration * Minute
  omega

/-- C1, witness: the four half-hour slots of Monday 2024-01-01, 09:00 to 11:00. -/
theorem slot_length_eq_duration_witness :
    generateTimeSlots noZones 10 reqMonday 30 3 dbUTC = some (.ok
      [slotAt 1704099600000000000 1704101400000000000,
       slotAt 1704101400000000000 1704103200000000000,
       slotAt 1704103200000000000 1704105000000000000,
       slotAt 1704105000000000000 1704106800000000000]) ∧
    ∀ s ∈ [slotAt 1704099600000000000 1704101400000000000,
           slotAt 1704101400000000000 1704103200000000000,
           slotAt 1704103200000000000 1704105000000000000,
           slotAt 1704105000000000000 1704106800000000000],
      s.EndTime - s.StartTime = 30 * Minute :=
  ⟨rfl, slot_length_eq_duration noZones 10 reqMonday 30 3 dbUTC _ (by decide) (by decide) rfl⟩

/-- C1, as stated, fails: a service of 153722868 minutes with a gap of 153722867
minutes makes `time.Minute * time.Duration(serviceDuration)` wrap, the run
succeeds, and its first slot ends about 292 years before it starts. -/
theorem slot_length_wraps :
    ¬ ∀ (tzdb : String → Option Location) (fuel : Nat) (req : GenerateSlotsRequest)
        (serviceDuration businessID : Int) (db : DB) (slots : List TimeSlot),
        generateTimeSlots tzdb fuel req serviceDuration businessID db = some (.ok slots) →
        ∀ s ∈ slots, s.EndTime - s.StartTime = serviceDuration * Minute := by
  intro hall
  have hrun : generateTimeSlots noZones 10 reqHugeGap 153722868 3 dbUTC = some (.ok
      [slotAt 1704099600000000000 (-7519272393709551616),
       slotAt 1704099626290448384 (-7519272367419103232),
       slotAt 1704099652580896768 (-7519272341128654848)]) := rfl
  have := hall noZones 10 reqHugeGap 153722868 3 dbUTC _ hrun
    (slotAt 1704099600000000000 (-7519272393709551616)) (List.mem_cons_self _ _)
  revert this
  decide

/-! ## C2: slots are ordered and do not overlap -/

theorem step_of_range (g d : Int) (h1 : -9223372036854775808 ≤ Minute * (d + g))
    (h2 : Minute * (d + g) < 9223372036854775808) : minutes (intAdd g d) = (d + g) * Minute := by
  have hM : Minute = 60000000000 := by decide
  unfold intAdd
  rw [hM] at h1 h2
  rw [wrapInt64_of_range (g + d) (by omega) (by omega)]
  rw [minutes_of_range (g + d) (by rw [hM]; omega) (by rw [hM]; omega)]
  ring

/-- The zone `jerusalem` keeps the offset of two hours over the range of every
request that ends more than three days before its transition. -/
theorem jerusalem_before_transition (req : GenerateSlotsRequest)
    (h : (Truncate24h req.EndDate + day) / Second + 172800 < 1711670400) :
    offsetConstant (businessLocation sampleZones dbJerusalem 3) 7200 req := by
  refine ⟨by decide, by decide, ?_⟩
  intro sec _ h2
  show (jerusalem.lookup sec).1 = 7200
  unfold jerusalem
  simp only
  rw [if_pos (by omega)]

/-- The zone `jerusalem` keeps the offset of two hours over the range of
`reqJanuary`, which lies months before its transition. -/
theorem jerusalem_in_january :
    offsetConstant (businessLocation sampleZones dbJerusalem 3) 7200 reqJanuary :=
  jerusalem_before_transition reqJanuary (by decide)

/-- C2, as amended: for a service duration of at least one minute and a gap
that is not negative whose sum in minutes fits a `time.Duration`, in a business
location whose offset does not change over the range of the request,
neighbouring slots of a successful run are ordered and disjoint, also from one
day to the next: the earlier one ends no later than the later one starts, and
starts strictly before it. -/
theorem slots_ordered_disjoint (tzdb : String → Option Location) (fuel : Nat)
    (req : GenerateSlotsRequest) (serviceDuration businessID : Int) (db : DB)
    (slots : List TimeSlot) (offset : Int)
    (hd : 1 ≤ serviceDuration) (hg : 0 ≤ req.Interval)
    (hfit : Minute * (serviceDuration + req.Interval) < 9223372036854775808)
    (hzone : offsetConstant (businessLocation tzdb db businessID) offset req)
    (h : generateTimeSlots tzdb fuel req serviceDuration businessID db = some (.ok slots)) :
    List.Chain' (fun a b : TimeSlot => a.EndTime ≤ b.StartTime ∧ a.StartTime < b.StartTime)
      slots := by
  have hM : Minute = 60000000000 := by decide
  have hstep := step_of_range req.Interval serviceDuration (by rw [hM]; omega) hfit
  have hdur := minutes_of_range serviceDuration (by rw [hM]; omega) (by rw [hM] at hfit ⊢; omega)
  rw [generateTimeSlots_eq_fixedZone tzdb fuel req serviceDuration businessID db offset hzone] at h
  refine (dayLoop_chain offset req serviceDuration businessID _ _ _ fuel _ ?_ ?_ fuel _ slots h).1
  · intro D x y _ _ hxe _ hy _
    rw [hstep] at hy
    rw [hdur] at hxe
    rw [hM] at hy hxe
    constructor <;> omega
  · intro D x y _ _ hxe hxw hyw
    rw [hdur] at hxe
    rw [hM] at hxe
    rw [wall_fixedZone] at hxw hyw
    constructor <;> omega

/-- C2, witness: Monday 2024-01-01 and Tuesday 2024-01-02, 09:00 to 10:00 in
Jerusalem, two hours east of UTC in January. -/
theorem slots_ordered_disjoint_witness :
    generateTimeSlots sampleZones 10 reqJanuary 30 3 dbJerusalem = some (.ok
      [slotAt 1704092400000000000 1704094200000000000,
       slotAt 1704178800000000000 1704180600000000000]) ∧
    List.Chain' (fun a b : TimeSlot => a.EndTime ≤ b.StartTime ∧ a.StartTime < b.StartTime)
      [slotAt 1704092400000000000 1704094200000000000,
       slotAt 1704178800000000000 1704180600000000000] :=
  ⟨rfl, slots_ordered_disjoint sampleZones 10 reqJanuary 30 3 dbJerusalem _ 7200 (by decide)
    (by decide) (by decide) jerusalem_in_january rfl⟩

/-- C2, as stated, fails, and so does each half of the amendment alone. With a
service of one minute and a gap of 307445734 minutes in UTC the step
`time.Minute * time.Duration(interval + duration)` wraps to about 26.29 seconds,
so the one-minute slots of the window 09:00 to 09:02 overlap. And in Dhaka, over
2009-06-19 and 2009-06-20 with the window 00:00 to 23:15, the end of the first
day's window (local 23:15, an hour that the transition skips) lies after the
start of the second day's window, and the slot at 2009-06-19T17:00:00Z is
returned twice, by Friday's walk and by Saturday's. -/
theorem slots_overlap_on_wrap_and_transition :
    (¬ ∀ (tzdb : String → Option Location) (fuel : Nat) (req : GenerateSlotsRequest)
        (serviceDuration businessID : Int) (db : DB) (slots : List TimeSlot),
        1 ≤ serviceDuration → 0 ≤ req.Interval →
        (parseClock (withSeconds req.StartTime).data).isSome = true →
        (parseClock (withSeconds req.EndTime).data).isSome = true →
        generateTimeSlots tzdb fuel req serviceDuration businessID db = some (.ok slots) →
        List.Chain' (fun a b : TimeSlot => a.EndTime ≤ b.StartTime ∧ a.StartTime < b.StartTime)
          slots) ∧
    (¬ ∀ (tzdb : String → Option Location) (fuel : Nat) (req : GenerateSlotsRequest)
        (serviceDuration businessID : Int) (db : DB) (slots : List TimeSlot) (offset : Int),
        1 ≤ serviceDuration → 0 ≤ req.Interval →
        offsetConstant (businessLocation tzdb db businessID) offset req →
        generateTimeSlots tzdb fuel req serviceDuration businessID db = some (.ok slots) →
        List.Chain' (fun a b : TimeSlot => a.EndTime ≤ b.StartTime ∧ a.StartTime < b.StartTime)
          slots) ∧
    (¬ ∀ (tzdb : String → Option Location) (fuel : Nat) (req : GenerateSlotsRequest)
        (serviceDuration businessID : Int) (db : DB) (slots : List TimeSlot),
        1 ≤ serviceDuration → 0 ≤ req.Interval →
        Minute * (serviceDuration + req.Interval) < 9223372036854775808 →
        generateTimeSlots tzdb fuel req serviceDuration businessID db = some (.ok slots) →
        List.Chain' (fun a b : TimeSlot => a.EndTime ≤ b.StartTime ∧ a.StartTime < b.StartTime)
          slots) := by
  have hwrap : generateTimeSlots noZones 10 reqWrapGap 1 3 dbUTC = some (.ok
      [slotAt 1704099600000000000 1704099660000000000,
       slotAt 1704099626290448384 1704099686290448384,
       slotAt 1704099652580896768 1704099712580896768]) := rfl
  have hdhaka : generateTimeSlots sampleZones 10 reqDhaka 10 3 dbDhaka = some (.ok
      [slotAt 1245348000000000000 1245348600000000000,
       slotAt 1245430800000000000 1245431400000000000,
       slotAt 1245430800000000000 1245431400000000000,
       slotAt 1245513600000000000 1245514200000000000]) := rfl
  refine ⟨?_, ?_, ?_⟩
  · intro hall
    have := hall noZones 10 reqWrapGap 1 3 dbUTC _ (by decide) (by decide) (by decide)
      (by decide) hwrap
    rw [List.chain'_cons] at this
    exact absurd this.1.1 (by decide)
  · intro hall
    have := hall noZones 10 reqWrapGap 1 3 dbUTC _ 0 (by decide) (by decide)
      ⟨by decide, by decide, fun _ _ _ => rfl⟩ hwrap
    rw [List.chain'_cons] at this
    exact absurd this.1.1 (by decide)
  · intro hall
    have := hall sampleZones 10 reqDhaka 10 3 dbDhaka _ (by decide) (by decide) (by decide)
      hdhaka
    rw [List.chain'_cons, List.chain'_cons] at this
    exact absurd this.2.1.2 (by decide)

/-! ## C3: spacing of consecutive slots -/

/-- C3, as amended: when `serviceDuration + gapInterval` minutes fit a
`time.Duration` and the offset of the business location does not change over the
range of the request, two consecutive slots of a successful run that start on
the same local calendar day of the business start exactly
`serviceDuration + gapInterval` minutes apart. -/
theorem same_day_spacing (tzdb : String → Option Location) (fuel : Nat)
    (req : GenerateSlotsRequest) (serviceDuration businessID : Int) (db : DB)
    (slots : List TimeSlot) (offset : Int)
    (hlo : -9223372036854775808 ≤ Minute * (serviceDuration + req.Interval))
    (hhi : Minute * (serviceDuration + req.Interval) < 9223372036854775808)
    (hzone : offsetConstant (businessLocation tzdb db businessID) offset req)
    (h : generateTimeSlots tzdb fuel req serviceDuration businessID db = some (.ok slots)) :
    List.Chain' (fun a b : TimeSlot =>
        localDay (businessLocation tzdb db businessID) a.StartTime =
          localDay (businessLocation tzdb db businessID) b.StartTime →
        b.StartTime - a.StartTime = (serviceDuration + req.Interval) * Minute) slots := by
  have hstep := step_of_range req.Interval serviceDuration hlo hhi
  rw [generateTimeSlots_eq_fixedZone tzdb fuel req serviceDuration businessID db offset hzone] at h
  have hrange := dayLoop_fixedZone_slots offset req serviceDuration businessID _ _ _ fuel fuel _
    slots h
  have hfix : List.Chain' (fun a b : TimeSlot =>
      localDay (fixedZone offset) a.StartTime = localDay (fixedZone offset) b.StartTime →
      b.StartTime - a.StartTime = (serviceDuration + req.Interval) * Minute) slots := by
    refine (dayLoop_chain offset req serviceDuration businessID _ _ _ fuel _ ?_ ?_ fuel _ slots
      h).1
    · intro D x y _ _ _ _ hy _ _
      rw [hstep] at hy
      omega
    · intro D x y hx1 hx2 _ _ hyw hsame
      exfalso
      have hxd := localDay_of_bounds _ D x.StartTime hx1 hx2
      have hyb := localDay_bounds (fixedZone offset) y.StartTime
      rw [← hsame, hxd] at hyb
      omega
  rw [List.Chain'.iff_mem] at hfix
  refine hfix.imp ?_
  intro x y ⟨hx, hy, hxy⟩ hsame
  apply hxy
  have rx := hrange x hx
  have ry := hrange y hy
  unfold localDay at hsame ⊢
  rw [wall_of_offsetConstant _ offset req hzone x.StartTime rx.1 rx.2.1,
    wall_of_offsetConstant _ offset req hzone y.StartTime ry.1 ry.2.1] at hsame
  exact hsame

/-- C3, witness: Monday 2024-01-01, 09:00 to 10:30 in Jerusalem, half an hour
with a gap of 15 minutes, and Tuesday the same. -/
theorem same_day_spacing_witness :
    generateTimeSlots sampleZones 10 { reqJanuary with EndTime := "10:30" } 30 3 dbJerusalem =
      some (.ok
        [slotAt 1704092400000000000 1704094200000000000,
         slotAt 1704095100000000000 1704096900000000000,
         slotAt 1704178800000000000 1704180600000000000,
         slotAt 1704181500000000000 1704183300000000000]) ∧
    List.Chain' (fun a b : TimeSlot =>
        localDay (businessLocation sampleZones dbJerusalem 3) a.StartTime =
          localDay (businessLocation sampleZones dbJerusalem 3) b.StartTime →
        b.StartTime - a.StartTime = (30 + reqJanuary.Interval) * Minute)
      [slotAt 1704092400000000000 1704094200000000000,
       slotAt 1704095100000000000 1704096900000000000,
       slotAt 1704178800000000000 1704180600000000000,
       slotAt 1704181500000000000 1704183300000000000] :=
  ⟨rfl, same_day_spacing sampleZones 10 { reqJanuary with EndTime := "10:30" } 30 3 dbJerusalem _
    7200 (by decide) (by decide) jerusalem_in_january rfl⟩

/-- C3, as stated, fails, and so does every amendment short of the one above.
Over two days in UTC the last slot of Monday and the first slot of Tuesday are
consecutive and 23.5 hours apart, not 30 minutes. Within one day in UTC a gap of
307445734 minutes after a one-minute service wraps to a step of about 26.29
seconds. And in Dhaka over 2009-06-19 and 2009-06-20 the slot at
2009-06-19T17:00:00Z is returned twice in a row: the same local day, zero
minutes apart. -/
theorem spacing_fails_across_days_on_wrap_and_transition :
    (¬ ∀ (tzdb : String → Option Location) (fuel : Nat) (req : GenerateSlotsRequest)
        (serviceDuration businessID : Int) (db : DB) (slots : List TimeSlot),
        1 ≤ serviceDuration → 0 ≤ req.Interval →
        (parseClock (withSeconds req.StartTime).data).isSome = true →
        (parseClock (withSeconds req.EndTime).data).isSome = true →
        generateTimeSlots tzdb fuel req serviceDuration businessID db = some (.ok slots) →
        List.Chain' (fun a b : TimeSlot =>
          b.StartTime - a.StartTime = (serviceDuration + req.Interval) * Minute) slots) ∧
    (¬ ∀ (tzdb : String → Option Location) (fuel : Nat) (req : GenerateSlotsRequest)
        (serviceDuration businessID : Int) (db : DB) (slots : List TimeSlot) (offset : Int),
        1 ≤ serviceDuration → 0 ≤ req.Interval →
        offsetConstant (businessLocation tzdb db businessID) offset req →
        generateTimeSlots tzdb fuel req serviceDuration businessID db = some (.ok slots) →
        List.Chain' (fun a b : TimeSlot =>
          localDay (businessLocation tzdb db businessID) a.StartTime =
            localDay (businessLocation tzdb db businessID) b.StartTime →
          b.StartTime - a.StartTime = (serviceDuration + req.Interval) * Minute) slots) ∧
    (¬ ∀ (tzdb : String → Option Location) (fuel : Nat) (req : GenerateSlotsRequest)
        (serviceDuration businessID : Int) (db : DB) (slots : List TimeSlot),
        1 ≤ serviceDuration → 0 ≤ req.Interval →
        Minute * (serviceDuration + req.Interval) < 9223372036854775808 →
        generateTimeSlots tzdb fuel req serviceDuration businessID db = some (.ok slots) →
        List.Chain' (fun a b : TimeSlot =>
          localDay (businessLocation tzdb db businessID) a.StartTime =
            localDay (businessLocation tzdb db businessID) b.StartTime →
          b.StartTime - a.StartTime = (serviceDuration + req.Interval) * Minute) slots) := by
  refine ⟨?_, ?_, ?_⟩
  · intro hall
    have hrun : generateTimeSlots noZones 10 reqTwoDays 30 3 dbUTC = some (.ok
        [slotAt 1704099600000000000 1704101400000000000,
         slotAt 1704101400000000000 1704103200000000000,
         slotAt 1704186000000000000 1704187800000000000,
         slotAt 1704187800000000000 1704189600000000000]) := rfl
    have := hall noZones 10 reqTwoDays 30 3 dbUTC _ (by decide) (by decide) (by decide)
      (by decide) hrun
    rw [List.chain'_cons, List.chain'_cons] at this
    exact absurd this.2.1 (by decide)
  · intro hall
    have hrun : generateTimeSlots noZones 10 reqWrapGap 1 3 dbUTC = some (.ok
        [slotAt 1704099600000000000 1704099660000000000,
         slotAt 1704099626290448384 1704099686290448384,
         slotAt 1704099652580896768 1704099712580896768]) := rfl
    have := hall noZones 10 reqWrapGap 1 3 dbUTC _ 0 (by decide) (by decide)
      ⟨by decide, by decide, fun _ _ _ => rfl⟩ hrun
    rw [List.chain'_cons] at this
    exact absurd (this.1 (by decide)) (by decide)
  · intro hall
    have hrun : generateTimeSlots sampleZones 10 reqDhaka 10 3 dbDhaka = some (.ok
        [slotAt 1245348000000000000 1245348600000000000,
         slotAt 1245430800000000000 1245431400000000000,
         slotAt 1245430800000000000 1245431400000000000,
         slotAt 1245513600000000000 1245514200000000000]) := rfl
    have := hall sampleZones 10 reqDhaka 10 3 dbDhaka _ (by decide) (by decide) (by decide) hrun
    rw [List.chain'_cons, List.chain'_cons] at this
    exact absurd (this.2.1 rfl) (by decide)

/-! ## C4: no slot on a Sunday -/

/-- C4, as amended: in a business location whose offset does not change over the
range of the request, no slot of a successful run of `generateTimeSlots` starts
on a local calendar day that is a Sunday, whatever the request and the
duration. -/
theorem no_slot_on_sunday (tzdb : String → Option Location) (fuel : Nat)
    (req : GenerateSlotsRequest) (serviceDuration businessID : Int) (db : DB)
    (slots : List TimeSlot) (offset : Int)
    (hzone : offsetConstant (businessLocation tzdb db businessID) offset req)
    (h : generateTimeSlots tzdb fuel req serviceDuration businessID db = some (.ok slots)) :
    ∀ s ∈ slots, Weekday (businessLocation tzdb db businessID) s.StartTime ≠ 0 := by
  rw [generateTimeSlots_eq_fixedZone tzdb fuel req serviceDuration businessID db offset hzone] at h
  intro s hs
  have hr := dayLoop_fixedZone_slots offset req serviceDuration businessID _ _ _ fuel fuel _
    slots h s hs
  have hw := hr.2.2
  unfold Weekday localDay at hw ⊢
  rw [wall_of_offsetConstant _ offset req hzone s.StartTime hr.1 hr.2.1]
  exact hw

/-- C4, witness: Saturday 2024-01-06 to Monday 2024-01-08 in Jerusalem, two
hours east of UTC in January, gives the slots of Saturday and Monday, none on
Sunday 2024-01-07. -/
theorem no_slot_on_sunday_witness :
    generateTimeSlots sampleZones 10 reqWeekend 30 3 dbJerusalem = some (.ok
      [slotAt 1704524400000000000 1704526200000000000,
       slotAt 1704526200000000000 1704528000000000000,
       slotAt 1704697200000000000 1704699000000000000,
       slotAt 1704699000000000000 1704700800000000000]) ∧
    ∀ s ∈ [slotAt 1704524400000000000 1704526200000000000,
           slotAt 1704526200000000000 1704528000000000000,
           slotAt 1704697200000000000 1704699000000000000,
           slotAt 1704699000000000000 1704700800000000000],
      Weekday (businessLocation sampleZones dbJerusalem 3) s.StartTime ≠ 0 :=
  ⟨rfl, no_slot_on_sunday sampleZones 10 reqWeekend 30 3 dbJerusalem _ 7200
    (jerusalem_before_transition reqWeekend (by decide)) rfl⟩

/-- C4, as stated, fails: in Sao Paulo the local midnight that begins Monday
1997-10-06 is skipped by the transition, `time.ParseInLocation` resolves the
start time 00:00 of that Monday to 1997-10-06T02:00:00Z, and that instant reads
23:00 of Sunday 1997-10-05 in the zone; the run returns a slot that starts
there. -/
theorem slot_on_sunday_at_transition :
    ¬ ∀ (tzdb : String → Option Location) (fuel : Nat) (req : GenerateSlotsRequest)
        (serviceDuration businessID : Int) (db : DB) (slots : List TimeSlot),
        1 ≤ serviceDuration → 0 ≤ req.Interval →
        generateTimeSlots tzdb fuel req serviceDuration businessID db = some (.ok slots) →
        ∀ s ∈ slots, Weekday (businessLocation tzdb db businessID) s.StartTime ≠ 0 := by
  intro hall
  have hrun : generateTimeSlots sampleZones 10 reqSaoPaulo 15 3 dbSaoPaulo = some (.ok
      [slotAt 876103200000000000 876104100000000000]) := rfl
  have := hall sampleZones 10 reqSaoPaulo 15 3 dbSaoPaulo _ (by decide) (by decide) hrun
    (slotAt 876103200000000000 876104100000000000) (List.mem_cons_self _ _)
  exact this (by decide)

/-! ## C5: the slots of a single day -/

/-- With enough fuel the walk of a window returns slot `k` for exactly the first
`n` values of `k`, when these fit the window and slot `n` does not. -/
theorem slotLoop_eq_range (req : GenerateSlotsRequest) (d b e : Int) :
    ∀ (n : Nat) (cur : Int) (fuel : Nat), n < fuel →
      (∀ k : Nat, k < n → cur + k * minutes (intAdd req.Interval d) < e ∧
        cur + k * minutes (intAdd req.Interval d) + minutes d ≤ e) →
      ¬ (cur + n * minutes (intAdd req.Interval d) < e ∧
        cur + n * minutes (intAdd req.Interval d) + minutes d ≤ e) →
      slotLoop req d b e fuel cur = some ((List.range n).map fun k : Nat =>
        { ID := 0, StartTime := cur + k * minutes (intAdd req.Interval d),
          EndTime := cur + k * minutes (intAdd req.Interval d) + minutes d,
          IsAvailable := true, ServiceID := req.ServiceID, ServiceName := "",
          BusinessID := b }) := by
  intro n
  induction n with
  | zero =>
    intro cur fuel hf _ hstop
    cases fuel with
    | zero => omega
    | succ f =>
      simp only [Nat.cast_zero, zero_mul, add_zero] at hstop
      simp only [slotLoop, List.range_zero, List.map_nil]
      by_cases h1 : cur < e
      · rw [if_pos h1, if_pos (by omega)]
      · rw [if_neg h1]
  | succ m ih =>
    intro cur fuel hf hfit hstop
    cases fuel with
    | zero => omega
    | succ f =>
      have h0 := hfit 0 (by omega)
      simp only [Nat.cast_zero, zero_mul, add_zero] at h0
      simp only [slotLoop]
      rw [if_pos h0.1, if_neg (by omega)]
      rw [ih (cur + minutes (intAdd req.Interval d)) f (by omega)
        (fun k hk => by
          have := hfit (k + 1) (by omega)
          push_cast at this
          constructor <;> linarith [this.1, this.2])
        (by
          push_cast at hstop
          intro hc
          apply hstop
          constructor <;> linarith [hc.1, hc.2])]
      simp only [List.range_succ_eq_map, List.map_cons, List.map_map, Nat.cast_zero, zero_mul,
        add_zero]
      congr 2
      apply List.map_congr_left
      intro k _
      simp only [Function.comp, Nat.succ_eq_add_one]
      push_cast
      congr 1 <;> ring

theorem localDay_Truncate24h (t : Int) : localDay UTC (Truncate24h t) = localDay UTC t := by
  unfold localDay Truncate24h UTC
  simp only [wall_fixedZone, zero_mul, add_zero]
  have hd : day = 86400000000000 := by decide
  rw [hd]
  omega

theorem Truncate24h_eq (t : Int) : Truncate24h t = localDay UTC t * day := by
  unfold localDay Truncate24h UTC
  simp only [wall_fixedZone, zero_mul, add_zero]
  have hd : day = 86400000000000 := by decide
  rw [hd]
  omega

/-- C5, as amended: for a request whose dates fall on one UTC day that is not a
Sunday, in location UTC, with window `[s, e]`, a service duration `d ≥ 1` and a
gap `g ≥ 0` whose sum in minutes fits a `time.Duration`, `generateTimeSlots`
returns exactly the slots `[s + k (d + g), s + k (d + g) + d)` for the `k` with
`s + k (d + g) + d ≤ e`, in this order, and nothing else. -/
theorem single_day_slots (tzdb : String → Option Location) (req : GenerateSlotsRequest)
    (serviceDuration businessID : Int) (db : DB) (sc ec : Int)
    (hloc : businessLocation tzdb db businessID = UTC)
    (hday : Truncate24h req.StartDate = Truncate24h req.EndDate)
    (hw : Weekday UTC req.StartDate ≠ 0)
    (hs : parseClock (withSeconds req.StartTime).data = some sc)
    (he : parseClock (withSeconds req.EndTime).data = some ec)
    (hd : 1 ≤ serviceDuration) (hg : 0 ≤ req.Interval)
    (hfit : Minute * (serviceDuration + req.Interval) < 9223372036854775808) :
    ∃ n : Nat,
      (∀ k : Nat, k < n ↔
        Truncate24h req.StartDate + sc + k * ((serviceDuration + req.Interval) * Minute) +
          serviceDuration * Minute ≤ Truncate24h req.StartDate + ec) ∧
      ∀ fuel : Nat, n + 1 < fuel →
        generateTimeSlots tzdb fuel req serviceDuration businessID db =
          some (.ok (windowSlots req serviceDuration businessID
            (Truncate24h req.StartDate + sc) n)) := by
  have hM : Minute = 60000000000 := by decide
  have hstep := step_of_range req.Interval serviceDuration (by rw [hM]; omega) hfit
  have hdur := minutes_of_range serviceDuration (by rw [hM]; omega) (by rw [hM] at hfit ⊢; omega)
  have hpos : 0 < (serviceDuration + req.Interval) * Minute := by rw [hM]; omega
  have hdpos : 0 < serviceDuration * Minute := by rw [hM]; omega
  -- the number of slots
  have hcount : ∃ n : Nat, ∀ k : Nat, k < n ↔
      sc + k * ((serviceDuration + req.Interval) * Minute) + serviceDuration * Minute ≤ ec := by
    by_cases hW : 0 ≤ ec - sc - serviceDuration * Minute
    · refine ⟨((ec - sc - serviceDuration * Minute) / ((serviceDuration + req.Interval) * Minute)
        + 1).toNat, fun k => ?_⟩
      have hq : 0 ≤ (ec - sc - serviceDuration * Minute) /
          ((serviceDuration + req.Interval) * Minute) := Int.ediv_nonneg hW (le_of_lt hpos)
      have hk : (k : Int) ≤ (ec - sc - serviceDuration * Minute) /
          ((serviceDuration + req.Interval) * Minute) ↔
          (k : Int) * ((serviceDuration + req.Interval) * Minute) ≤
            ec - sc - serviceDuration * Minute := Int.le_ediv_iff_mul_le hpos
      constructor
      · intro h
        have : (k : Int) ≤ (ec - sc - serviceDuration * Minute) /
            ((serviceDuration + req.Interval) * Minute) := by omega
        have := hk.1 this
        linarith
      · intro h
        have : (k : Int) ≤ (ec - sc - serviceDuration * Minute) /
            ((serviceDuration + req.Interval) * Minute) := hk.2 (by linarith)
        omega
    · refine ⟨0, fun k => ?_⟩
      constructor
      · intro h; omega
      · intro h
        have : 0 ≤ (k : Int) * ((serviceDuration + req.Interval) * Minute) :=
          mul_nonneg (Int.ofNat_nonneg k) (le_of_lt hpos)
        omega
  obtain ⟨n, hn⟩ := hcount
  refine ⟨n, fun k => by rw [hn k]; constructor <;> intro h <;> linarith, ?_⟩
  intro fuel hfuel
  obtain ⟨f, rfl⟩ : ∃ f, fuel = f + 2 := ⟨fuel - 2, by omega⟩
  have hdaypos : (0 : Int) < day := by decide
  unfold generateTimeSlots
  simp only [hloc]
  rw [← hday]
  have hw2 : Weekday UTC (Truncate24h req.StartDate) ≠ 0 := by
    unfold Weekday at hw ⊢
    rw [localDay_Truncate24h]
    exact hw
  have hps : ParseInLocation UTC (localDay UTC (Truncate24h req.StartDate))
      (withSeconds req.StartTime) = some (Truncate24h req.StartDate + sc) := by
    unfold ParseInLocation
    rw [hs, localDay_Truncate24h, Truncate24h_eq]
    unfold UTC
    simp [fromWall_fixedZone]
  have hpe : ParseInLocation UTC (localDay UTC (Truncate24h req.StartDate))
      (withSeconds req.EndTime) = some (Truncate24h req.StartDate + ec) := by
    unfold ParseInLocation
    rw [he, localDay_Truncate24h, Truncate24h_eq]
    unfold UTC
    simp [fromWall_fixedZone]
  have hwalk := slotLoop_eq_range req serviceDuration businessID
    (Truncate24h req.StartDate + ec) n (Truncate24h req.StartDate + sc) (f + 2) (by omega)
    (fun k hk => by
      have := (hn k).1 hk
      rw [hstep, hdur]
      constructor <;> nlinarith)
    (by
      rw [hstep, hdur]
      intro hc
      have := (hn n).2 (by linarith [hc.2])
      omega)
  have hadd : AddDate1 UTC (Truncate24h req.StartDate) = Truncate24h req.StartDate + day :=
    AddDate1_fixedZone 0 _
  simp only [dayLoop]
  rw [if_pos (by omega), if_neg hw2, hps, hpe]
  simp only [hwalk, hadd]
  rw [if_neg (by omega)]
  simp only [List.append_nil, windowSlots, hstep, hdur]

/-- C5, witness: Monday 2024-01-01 in UTC, 09:00 to 11:00, thirty minutes, no
gap. The run gives exactly 09:00-09:30, 09:30-10:00, 10:00-10:30 and
10:30-11:00, and the window 09:00 to 09:20 gives no slot. -/
theorem single_day_slots_witness :
    (∃ n : Nat,
      (∀ k : Nat, k < n ↔
        Truncate24h reqMonday.StartDate + 32400000000000 +
          k * ((30 + reqMonday.Interval) * Minute) + 30 * Minute ≤
          Truncate24h reqMonday.StartDate + 39600000000000) ∧
      ∀ fuel : Nat, n + 1 < fuel →
        generateTimeSlots noZones fuel reqMonday 30 3 dbUTC =
          some (.ok (windowSlots reqMonday 30 3
            (Truncate24h reqMonday.StartDate + 32400000000000) n))) ∧
    generateTimeSlots noZones 10 reqMonday 30 3 dbUTC = some (.ok
      [slotAt 1704099600000000000 1704101400000000000,
       slotAt 1704101400000000000 1704103200000000000,
       slotAt 1704103200000000000 1704105000000000000,
       slotAt 1704105000000000000 1704106800000000000]) ∧
    generateTimeSlots noZones 10 reqShort 30 3 dbUTC = some (.ok []) :=
  ⟨single_day_slots noZones reqMonday 30 3 dbUTC 32400000000000 39600000000000 rfl rfl
    (by decide) rfl rfl (by decide) (by decide) (by decide), rfl, rfl⟩

/-- C5, as stated, fails: for Monday 2024-01-01 in UTC, 09:00 to 09:02, a
service of one minute and a gap of 307445734 minutes, only `k = 0` satisfies
`s + k (d + g) + d ≤ e`, but the run returns three slots, because the step wraps
to about 26.29 seconds. -/
theorem single_day_slots_fail_on_wrap :
    ¬ ∀ (tzdb : String → Option Location) (req : GenerateSlotsRequest)
        (serviceDuration businessID : Int) (db : DB) (sc ec : Int),
        businessLocation tzdb db businessID = UTC →
        Truncate24h req.StartDate = Truncate24h req.EndDate →
        Weekday UTC req.StartDate ≠ 0 →
        parseClock (withSeconds req.StartTime).data = some sc →
        parseClock (withSeconds req.EndTime).data = some ec →
        1 ≤ serviceDuration → 0 ≤ req.Interval →
        ∃ n : Nat,
          (∀ k : Nat, k < n ↔
            Truncate24h req.StartDate + sc + k * ((serviceDuration + req.Interval) * Minute) +
              serviceDuration * Minute ≤ Truncate24h req.StartDate + ec) ∧
          ∀ fuel : Nat, n + 1 < fuel →
            generateTimeSlots tzdb fuel req serviceDuration businessID db =
              some (.ok (windowSlots req serviceDuration businessID
                (Truncate24h req.StartDate + sc) n)) := by
  intro hall
  obtain ⟨n, hn, hrun⟩ := hall noZones reqWrapGap 1 3 dbUTC 32400000000000 32520000000000
    rfl rfl (by decide) rfl rfl (by decide) (by decide)
  have h0 : 0 < n := (hn 0).2 (by decide)
  have h1 : ¬ 1 < n := fun h => absurd ((hn 1).1 h) (by decide)
  have hn1 : n = 1 := by omega
  subst hn1
  have hreal : generateTimeSlots noZones 10 reqWrapGap 1 3 dbUTC = some (.ok
      [slotAt 1704099600000000000 1704099660000000000,
       slotAt 1704099626290448384 1704099686290448384,
       slotAt 1704099652580896768 1704099712580896768]) := rfl
  have hclaim := hrun 10 (by decide)
  rw [hreal] at hclaim
  have hlen := congrArg (fun r : Option (Except GenError (List TimeSlot)) =>
    match r with
    | some (.ok l) => l.length
    | _ => 0) hclaim
  simp [windowSlots] at hlen

/-! ## C6: a time of day that does not parse -/

/-- The outer loop returns an error at the first day it visits that is not a
Sunday, when one of the two times of day does not parse; the days it visits are
the cursors that repeated `AddDate(0, 0, 1)` gives. -/
theorem dayLoop_error (loc : Location) (req : GenerateSlotsRequest) (d b : Int)
    (st et : String) (endDate : Int) (n : Nat)
    (hbad : parseClock st.data = none ∨ parseClock et.data = none) :
    ∀ (k : Nat) (cur : Int) (fuel : Nat), k < fuel →
      (∀ j : Nat, j ≤ k → Nat.iterate (AddDate1 loc) j cur < endDate) →
      Weekday loc (Nat.iterate (AddDate1 loc) k cur) ≠ 0 →
      ∃ e, dayLoop loc req d b st et endDate n fuel cur = some (.error e) := by
  have hnow : ∀ (cur : Int) (f : Nat), cur < endDate → Weekday loc cur ≠ 0 →
      ∃ e, dayLoop loc req d b st et endDate n (f + 1) cur = some (.error e) := by
    intro cur f hc hw
    simp only [dayLoop]
    rw [if_pos hc, if_neg hw]
    unfold ParseInLocation
    cases hs : parseClock st.data with
    | none => exact ⟨_, rfl⟩
    | some sc =>
      cases he : parseClock et.data with
      | none => exact ⟨_, rfl⟩
      | some ec =>
        rcases hbad with h | h
        · rw [hs] at h; cases h
        · rw [he] at h; cases h
  intro k
  induction k with
  | zero =>
    intro cur fuel hf hc hw
    obtain ⟨f, rfl⟩ : ∃ f, fuel = f + 1 := ⟨fuel - 1, by omega⟩
    exact hnow cur f (hc 0 (le_refl 0)) hw
  | succ m ih =>
    intro cur fuel hf hc hw
    obtain ⟨f, rfl⟩ : ∃ f, fuel = f + 1 := ⟨fuel - 1, by omega⟩
    have hcur : cur < endDate := hc 0 (Nat.zero_le _)
    by_cases hw0 : Weekday loc cur = 0
    · have hrec := ih (AddDate1 loc cur) f (by omega)
        (fun j hj => by
          have := hc (j + 1) (by omega)
          rwa [Function.iterate_succ_apply] at this)
        (by rwa [Function.iterate_succ_apply] at hw)
      rw [dayLoop]
      rw [if_pos hcur, if_pos hw0]
      exact hrec
    · exact hnow cur f hcur hw0

/-- C6, as amended: when the text of `start_time` or of `end_time` does not parse
and one of the days the loop visits (the cursor after `k` calls of
`AddDate(0, 0, 1)` from midnight UTC of the start date, all cursors up to it
lying before the end of the UTC day of the end date) is not a Sunday in the
business location, `generateTimeSlots` returns an error, for every fuel above
`k`. -/
theorem unparsable_time_is_error (tzdb : String → Option Location) (fuel : Nat)
    (req : GenerateSlotsRequest) (serviceDuration businessID : Int) (db : DB) (k : Nat)
    (hbad : parseClock (withSeconds req.StartTime).data = none ∨
      parseClock (withSeconds req.EndTime).data = none)
    (hin : ∀ j : Nat, j ≤ k →
      Nat.iterate (AddDate1 (businessLocation tzdb db businessID)) j (Truncate24h req.StartDate) <
        Truncate24h req.EndDate + day)
    (hw : Weekday (businessLocation tzdb db businessID)
      (Nat.iterate (AddDate1 (businessLocation tzdb db businessID)) k
        (Truncate24h req.StartDate)) ≠ 0)
    (hfuel : k < fuel) :
    ∃ e, generateTimeSlots tzdb fuel req serviceDuration businessID db = some (.error e) := by
  unfold generateTimeSlots
  exact dayLoop_error _ req serviceDuration businessID _ _ _ fuel hbad k _ fuel hfuel hin hw

/-- C6, witness: Monday 2024-01-01 with start time `soon`. -/
theorem unparsable_time_is_error_witness :
    ∃ e, generateTimeSlots noZones 10 reqMondayBad 30 3 dbUTC = some (.error e) :=
  unparsable_time_is_error noZones 10 reqMondayBad 30 3 dbUTC 0 (Or.inl rfl)
    (fun j hj => by
      have : j = 0 := by omega
      subst this
      decide)
    (by decide) (by decide)

/-- C6, as stated, fails: over the range Sunday 2024-01-07 to Sunday 2024-01-07
the start time `soon` is never parsed, and no amount of fuel makes the run
return an error (it returns the empty sequence). -/
theorem unparsable_time_unnoticed_on_sundays :
    ¬ ∀ (tzdb : String → Option Location) (req : GenerateSlotsRequest)
        (serviceDuration businessID : Int) (db : DB),
        (parseClock (withSeconds req.StartTime).data = none ∨
          parseClock (withSeconds req.EndTime).data = none) →
        ∃ fuel e, generateTimeSlots tzdb fuel req serviceDuration businessID db =
          some (.error e) := by
  intro hall
  obtain ⟨fuel, e, h⟩ := hall noZones reqSundayBad 30 3 dbUTC (Or.inl rfl)
  have hloc : businessLocation noZones dbUTC 3 = UTC := rfl
  unfold generateTimeSlots at h
  simp only [hloc] at h
  match fuel, h with
  | 0, h => simp [dayLoop] at h
  | 1, h =>
    simp only [dayLoop] at h
    rw [if_pos (by decide), if_pos (by decide)] at h
    cases h
  | f + 2, h =>
    simp only [dayLoop] at h
    rw [if_pos (by decide), if_pos (by decide), if_neg (by decide)] at h
    cases h

/-! ## C7: the days the loop visits -/

/-- C7, the run at the failing input: five hours east of UTC, with start and end
date 2024-01-01T19:00:00Z, which is local midnight of Tuesday 2024-01-02 (local
day 19724, not a Sunday), the slots returned start at 2024-01-01T04:00:00Z and
04:30:00Z, that is on local day 19723 (Monday 2024-01-01), and Tuesday 09:00
local (2024-01-02T04:00:00Z) gets no slot. -/
theorem local_day_of_start_date_missed :
    generateTimeSlots karachiZones 10 reqKarachi 30 3 dbKarachi = some (.ok
      [slotAt 1704081600000000000 1704083400000000000,
       slotAt 1704083400000000000 1704085200000000000]) ∧
    businessLocation karachiZones dbKarachi 3 = (fixedZone 18000) ∧
    localDay (fixedZone 18000) reqKarachi.StartDate = 19724 ∧
    localDay (fixedZone 18000) reqKarachi.EndDate = 19724 ∧
    Weekday (fixedZone 18000) reqKarachi.StartDate = 2 ∧
    localDay (fixedZone 18000) 1704081600000000000 = 19723 ∧
    localDay (fixedZone 18000) 1704083400000000000 = 19723 ∧
    ParseInLocation (fixedZone 18000) 19724 "09:00:00" = some 1704168000000000000 :=
  ⟨rfl, rfl, by decide, by decide, by decide, by decide, by decide, rfl⟩

/-! ## C8: the fallback to UTC -/

/-- C8: when the business row gives no zone, or gives a zone that
`time.LoadLocation` does not know, `generateTimeSlots` returns what it returns
for the same request, duration and fuel when the row says `UTC`. -/
theorem timezone_fallback_is_utc (tzdb : String → Option Location) (fuel : Nat)
    (req : GenerateSlotsRequest) (serviceDuration businessID : Int) (db dbU : DB)
    (hmiss : db.timezone businessID = none ∨
      ∃ zone, db.timezone businessID = some zone ∧ LoadLocation tzdb zone = none)
    (hutc : dbU.timezone businessID = some "UTC") :
    generateTimeSlots tzdb fuel req serviceDuration businessID db =
      generateTimeSlots tzdb fuel req serviceDuration businessID dbU := by
  have hU : businessLocation tzdb dbU businessID = UTC := by
    unfold businessLocation
    rw [hutc]
    rfl
  have hD : businessLocation tzdb db businessID = UTC := by
    unfold businessLocation
    rcases hmiss with h | ⟨zone, h1, h2⟩
    · rw [h]; rfl
    · rw [h1]; simp only [h2]
  unfold generateTimeSlots
  rw [hU, hD]

/-- C8, witness: a database without business rows, and a database whose row
names a zone that the zone database does not hold, against one that says `UTC`. -/
theorem timezone_fallback_is_utc_witness :
    generateTimeSlots noZones 10 reqMonday 30 3 dbEmpty =
      generateTimeSlots noZones 10 reqMonday 30 3 dbUTC ∧
    generateTimeSlots noZones 10 reqMonday 30 3 dbKarachi =
      generateTimeSlots noZones 10 reqMonday 30 3 dbUTC :=
  ⟨timezone_fallback_is_utc noZones 10 reqMonday 30 3 dbEmpty dbUTC (Or.inl rfl) rfl,
   timezone_fallback_is_utc noZones 10 reqMonday 30 3 dbKarachi dbUTC
    (Or.inr ⟨"Asia/Karachi", rfl, rfl⟩) rfl⟩

/-! ## C9 and C10: `saveSlotsToDB` -/

/-- The insert loop over a batch that is split in two runs the first part and
then, from the state reached, the second. -/
theorem insertLoop_append (eng : Engine) :
    ∀ (pre rest : List TimeSlot) (visible : List SlotRow) (created : List TimeSlot),
      insertLoop eng visible created (pre ++ rest) =
        match insertLoop eng visible created pre with
        | .error e => .error e
        | .ok (v, c) => insertLoop eng v c rest := by
  intro pre
  induction pre with
  | nil => intro rest visible created; rfl
  | cons slot more ih =>
    intro rest visible created
    simp only [List.cons_append, insertLoop]
    cases eng.insert visible slot with
    | none => rfl
    | some slotID => exact ih rest _ _

/-- What a successful insert loop has done: it appended one slot per input slot,
each the input slot with the id the engine returned for it, and the transaction
sees one more row per slot. -/
theorem insertLoop_ok (eng : Engine) :
    ∀ (slots : List TimeSlot) (visible : List SlotRow) (created : List TimeSlot)
      (v : List SlotRow) (c : List TimeSlot),
      insertLoop eng visible created slots = .ok (v, c) →
      ∃ new : List TimeSlot, c = created ++ new ∧ v = visible ++ new.map toRow ∧
        new.length = slots.length ∧
        ∀ (i : Nat) (h1 : i < slots.length) (h2 : i < new.length),
          new[i] = { slots[i] with ID := new[i].ID } ∧
          eng.insert (visible ++ (new.take i).map toRow) slots[i] = some new[i].ID := by
  intro slots
  induction slots with
  | nil =>
    intro visible created v c h
    simp only [insertLoop] at h
    cases h
    exact ⟨[], by simp, by simp, rfl, fun i h1 _ => absurd h1 (by simp)⟩
  | cons slot rest ih =>
    intro visible created v c h
    simp only [insertLoop] at h
    cases hins : eng.insert visible slot with
    | none => rw [hins] at h; cases h
    | some slotID =>
      rw [hins] at h
      obtain ⟨new, hc, hv, hlen, hidx⟩ := ih _ _ v c h
      refine ⟨{ slot with ID := slotID } :: new, ?_, ?_, ?_, ?_⟩
      · rw [hc]; simp
      · rw [hv]; simp
      · simp [hlen]
      · intro i h1 h2
        cases i with
        | zero => simpa using hins
        | succ j =>
          have hj1 : j < rest.length := by simpa using h1
          have hj2 : j < new.length := by simpa using h2
          have := hidx j hj1 hj2
          simpa using this

/-- C9: when the insert of some slot of the batch fails, after the inserts of
all slots before it succeeded (any number of them), `saveSlotsToDB` returns an
error and no slots, and the committed rows are the rows before the call. -/
theorem failed_insert_rolls_back (eng : Engine) (rows : List SlotRow)
    (pre post : List TimeSlot) (slot : TimeSlot) (visible : List SlotRow)
    (created : List TimeSlot)
    (hpre : insertLoop eng rows [] pre = .ok (visible, created))
    (hfail : eng.insert visible slot = none) :
    ∃ e, saveSlotsToDB eng rows (pre ++ slot :: post) = (.error e, rows) := by
  unfold saveSlotsToDB
  by_cases hb : eng.begin rows = true
  · rw [if_pos hb, insertLoop_append, hpre]
    simp only [insertLoop, hfail]
    exact ⟨_, rfl⟩
  · rw [if_neg hb]
    exact ⟨_, rfl⟩

/-- C9, witness: the second insert of a batch of three fails; the first row does
not stay. -/
theorem failed_insert_rolls_back_witness :
    ∃ e, saveSlotsToDB engFailSecond [] ([slotAt 1 2] ++ slotAt 3 4 :: [slotAt 5 6]) =
      (.error e, []) :=
  failed_insert_rolls_back engFailSecond [] [slotAt 1 2] [slotAt 5 6] (slotAt 3 4)
    [toRow { slotAt 1 2 with ID := 1 }] [{ slotAt 1 2 with ID := 1 }] rfl rfl

/-- C10: when `saveSlotsToDB` succeeds it returns as many slots as it was given,
in the order given; the `i`-th returned slot is the `i`-th input slot with the
`ID` replaced by the id the engine returned for the `i`-th insert, and the
committed rows afterwards are the old rows followed by the rows of the returned
slots. -/
theorem saved_slots_keep_order (eng : Engine) (rows rowsAfter : List SlotRow)
    (slots created : List TimeSlot)
    (h : saveSlotsToDB eng rows slots = (.ok created, rowsAfter)) :
    created.length = slots.length ∧
    (∀ (i : Nat) (h1 : i < slots.length) (h2 : i < created.length),
      created[i] = { slots[i] with ID := created[i].ID } ∧
      eng.insert (rows ++ (created.take i).map toRow) slots[i] = some created[i].ID) ∧
    rowsAfter = rows ++ created.map toRow := by
  unfold saveSlotsToDB at h
  by_cases hb : eng.begin rows = true
  · rw [if_pos hb] at h
    cases hl : insertLoop eng rows [] slots with
    | error e => rw [hl] at h; cases h
    | ok r =>
      obtain ⟨v, c⟩ := r
      rw [hl] at h
      simp only at h
      by_cases hc : eng.commit rows v = true
      · rw [if_pos hc] at h
        obtain ⟨new, hcn, hv, hlen, hidx⟩ := insertLoop_ok eng slots rows [] v c hl
        simp only [List.nil_append] at hcn
        subst hcn
        cases h
        exact ⟨hlen, hidx, hv⟩
      · rw [if_neg hc] at h
        cases h
  · rw [if_neg hb] at h
    cases h

/-- C10, witness: two slots saved by an engine that numbers rows from 1. -/
theorem saved_slots_keep_order_witness :
    [{ slotAt 1 2 with ID := 1 }, { slotAt 3 4 with ID := 2 }].length =
      [slotAt 1 2, slotAt 3 4].length ∧
    (∀ (i : Nat) (h1 : i < [slotAt 1 2, slotAt 3 4].length)
      (h2 : i < [{ slotAt 1 2 with ID := 1 }, { slotAt 3 4 with ID := 2 }].length),
      [{ slotAt 1 2 with ID := 1 }, { slotAt 3 4 with ID := 2 }][i] =
        { [slotAt 1 2, slotAt 3 4][i] with
          ID := [{ slotAt 1 2 with ID := 1 }, { slotAt 3 4 with ID := 2 }][i].ID } ∧
      engOk.insert ([] ++ ([{ slotAt 1 2 with ID := 1 }, { slotAt 3 4 with ID := 2 }].take i).map
        toRow) [slotAt 1 2, slotAt 3 4][i] =
        some [{ slotAt 1 2 with ID := 1 }, { slotAt 3 4 with ID := 2 }][i].ID) ∧
    [toRow { slotAt 1 2 with ID := 1 }, toRow { slotAt 3 4 with ID := 2 }] =
      [] ++ [{ slotAt 1 2 with ID := 1 }, { slotAt 3 4 with ID := 2 }].map toRow :=
  saved_slots_keep_order engOk [] _ [slotAt 1 2, slotAt 3 4] _ rfl

/-! ## C11: the answers of the handler -/

/-- A failed `saveSlotsToDB` leaves the committed rows as they were. -/
theorem saveSlotsToDB_error_rows (eng : Engine) (rows rowsAfter : List SlotRow)
    (slots : List TimeSlot) (e : SaveError)
    (h : saveSlotsToDB eng rows slots = (.error e, rowsAfter)) : rowsAfter = rows := by
  unfold saveSlotsToDB at h
  by_cases hb : eng.begin rows = true
  · rw [if_pos hb] at h
    cases hl : insertLoop eng rows [] slots with
    | error e1 =>
      rw [hl] at h
      simp only [Prod.mk.injEq] at h
      exact h.2.symm
    | ok r =>
      obtain ⟨v, c⟩ := r
      rw [hl] at h
      simp only at h
      by_cases hc : eng.commit rows v = true
      · rw [if_pos hc] at h
        simp only [Prod.mk.injEq] at h
        cases h.1
      · rw [if_neg hc] at h
        simp only [Prod.mk.injEq] at h
        exact h.2.symm
  · rw [if_neg hb] at h
    simp only [Prod.mk.injEq] at h
    exact h.2.symm

/-- What an answer of the handler tells about the stages that produced it. -/
theorem GenerateSlots_answer (tzdb : String → Option Location) (fuel : Nat) (eng : Engine)
    (services : Int → Int → ServiceRow) (db : DB) (rows rowsAfter : List SlotRow)
    (currentUser : User) (businessID : Int) (body : Option DecodedBody)
    (resp : Response)
    (hb : currentUser.BusinessID = some businessID)
    (h : GenerateSlots tzdb fuel eng services db rows (some currentUser) body =
      some (resp, rowsAfter)) :
    (resp.status = 201 ↔ ∃ genReq service generatedSlots,
      ShouldBindJSON body = some genReq ∧
      services genReq.ServiceID businessID = .found service ∧
      generateTimeSlots tzdb fuel genReq service.Duration businessID db =
        some (.ok generatedSlots) ∧
      saveSlotsToDB eng rows generatedSlots = (.ok resp.slots, rowsAfter)) ∧
    (ShouldBindJSON body = none → resp.status = 400) ∧
    (∀ genReq service e, ShouldBindJSON body = some genReq →
      services genReq.ServiceID businessID = .found service →
      generateTimeSlots tzdb fuel genReq service.Duration businessID db = some (.error e) →
      resp.status = 400) ∧
    (∀ genReq, ShouldBindJSON body = some genReq →
      services genReq.ServiceID businessID = .noRows → resp.status = 404) ∧
    (∀ genReq service generatedSlots e r, ShouldBindJSON body = some genReq →
      services genReq.ServiceID businessID = .found service →
      generateTimeSlots tzdb fuel genReq service.Duration businessID db =
        some (.ok generatedSlots) →
      saveSlotsToDB eng rows generatedSlots = (.error e, r) → resp.status = 500) ∧
    (resp.status ≠ 201 → rowsAfter = rows) := by
  unfold GenerateSlots at h
  simp only [hb] at h
  cases hbind : ShouldBindJSON body with
  | none =>
    rw [hbind] at h
    simp only [Option.some.injEq, Prod.mk.injEq] at h
    obtain ⟨rfl, rfl⟩ := h
    refine ⟨⟨fun h1 => absurd h1 (by decide), fun ⟨_, _, _, h1, _⟩ => by cases h1⟩,
      fun _ => rfl, ?_, ?_, ?_, fun _ => rfl⟩
    · intro _ _ _ h1; cases h1
    · intro _ h1; cases h1
    · intro _ _ _ _ _ h1; cases h1
  | some genReq =>
    rw [hbind] at h
    simp only at h
    cases hsvc : services genReq.ServiceID businessID with
    | noRows =>
      rw [hsvc] at h
      simp only [Option.some.injEq, Prod.mk.injEq] at h
      obtain ⟨rfl, rfl⟩ := h
      refine ⟨⟨fun h1 => absurd h1 (by decide), ?_⟩, (fun h1 => by cases h1), ?_, fun _ _ _ => rfl,
        ?_, fun _ => rfl⟩
      · rintro ⟨g, sv, _, h1, h2, _⟩
        cases h1
        rw [hsvc] at h2
        cases h2
      · intro g sv _ h1 h2
        cases h1
        rw [hsvc] at h2
        cases h2
      · intro g sv _ _ _ h1 h2
        cases h1
        rw [hsvc] at h2
        cases h2
    | failed =>
      rw [hsvc] at h
      simp only [Option.some.injEq, Prod.mk.injEq] at h
      obtain ⟨rfl, rfl⟩ := h
      refine ⟨⟨fun h1 => absurd h1 (by decide), ?_⟩, (fun h1 => by cases h1), ?_, ?_,
        fun _ _ _ _ _ _ _ _ _ => rfl, fun _ => rfl⟩
      · rintro ⟨g, sv, _, h1, h2, _⟩
        cases h1
        rw [hsvc] at h2
        cases h2
      · intro g sv _ h1 h2
        cases h1
        rw [hsvc] at h2
        cases h2
      · intro g h1 h2
        cases h1
        rw [hsvc] at h2
        cases h2
    | found service =>
      rw [hsvc] at h
      simp only at h
      cases hgen : generateTimeSlots tzdb fuel genReq service.Duration businessID db with
      | none => rw [hgen] at h; cases h
      | some r =>
        cases r with
        | error e =>
          rw [hgen] at h
          simp only [Option.some.injEq, Prod.mk.injEq] at h
          obtain ⟨rfl, rfl⟩ := h
          refine ⟨⟨fun h1 => absurd h1 (by decide), ?_⟩, (fun h1 => by cases h1),
            fun _ _ _ _ _ _ => rfl, ?_, ?_, fun _ => rfl⟩
          · rintro ⟨g, sv, _, h1, h2, h3, _⟩
            cases h1
            rw [hsvc] at h2
            cases h2
            rw [hgen] at h3
            cases h3
          · intro g h1 h2
            cases h1
            rw [hsvc] at h2
            cases h2
          · intro g sv _ _ _ h1 h2 h3
            cases h1
            rw [hsvc] at h2
            cases h2
            rw [hgen] at h3
            cases h3
        | ok generatedSlots =>
          rw [hgen] at h
          simp only at h
          cases hsave : saveSlotsToDB eng rows generatedSlots with
          | mk res ra =>
            cases res with
            | error e =>
              rw [hsave] at h
              simp only [Option.some.injEq, Prod.mk.injEq] at h
              obtain ⟨rfl, rfl⟩ := h
              have hra := saveSlotsToDB_error_rows eng rows ra generatedSlots e hsave
              refine ⟨⟨fun h1 => absurd h1 (by decide), ?_⟩, (fun h1 => by cases h1), ?_, ?_,
                fun _ _ _ _ _ _ _ _ _ => rfl, fun _ => hra⟩
              · rintro ⟨g, sv, gs, h1, h2, h3, h4⟩
                cases h1
                rw [hsvc] at h2
                cases h2
                rw [hgen] at h3
                cases h3
                rw [hsave] at h4
                cases h4
              · intro g sv _ h1 h2 h3
                cases h1
                rw [hsvc] at h2
                cases h2
                rw [hgen] at h3
                cases h3
              · intro g h1 h2
                cases h1
                rw [hsvc] at h2
                cases h2
            | ok createdSlots =>
              rw [hsave] at h
              simp only [Option.some.injEq, Prod.mk.injEq] at h
              obtain ⟨rfl, rfl⟩ := h
              refine ⟨⟨fun _ => ⟨genReq, service, generatedSlots, rfl, hsvc, hgen, hsave⟩,
                fun _ => rfl⟩, (fun h1 => by cases h1), ?_, ?_, ?_, fun h1 => absurd rfl h1⟩
              · intro g sv _ h1 h2 h3
                cases h1
                rw [hsvc] at h2
                cases h2
                rw [hgen] at h3
                cases h3
              · intro g h1 h2
                cases h1
                rw [hsvc] at h2
                cases h2
              · intro g sv gs e r h1 h2 h3 h4
                cases h1
                rw [hsvc] at h2
                cases h2
                rw [hgen] at h3
                cases h3
                rw [hsave] at h4
                cases h4

/-- C11: for a user with a business, `GenerateSlots` answers 400 when binding
fails, 404 when the service query finds no row, 400 when synthesis fails, 500
when persistence fails, and 201 with the created slots when all four stages
succeed; an answer has status 201 only when all four stages succeeded, and with
every other status the committed rows are the rows before the request. -/
theorem GenerateSlots_status (tzdb : String → Option Location) (fuel : Nat) (eng : Engine)
    (services : Int → Int → ServiceRow) (db : DB) (rows : List SlotRow)
    (currentUser : User) (businessID : Int) (body : Option DecodedBody)
    (hb : currentUser.BusinessID = some businessID) :
    (ShouldBindJSON body = none →
      GenerateSlots tzdb fuel eng services db rows (some currentUser) body =
        some (⟨400, []⟩, rows)) ∧
    (∀ genReq, ShouldBindJSON body = some genReq →
      services genReq.ServiceID businessID = .noRows →
      GenerateSlots tzdb fuel eng services db rows (some currentUser) body =
        some (⟨404, []⟩, rows)) ∧
    (∀ genReq service e, ShouldBindJSON body = some genReq →
      services genReq.ServiceID businessID = .found service →
      generateTimeSlots tzdb fuel genReq service.Duration businessID db = some (.error e) →
      GenerateSlots tzdb fuel eng services db rows (some currentUser) body =
        some (⟨400, []⟩, rows)) ∧
    (∀ genReq service generatedSlots e r, ShouldBindJSON body = some genReq →
      services genReq.ServiceID businessID = .found service →
      generateTimeSlots tzdb fuel genReq service.Duration businessID db =
        some (.ok generatedSlots) →
      saveSlotsToDB eng rows generatedSlots = (.error e, r) →
      GenerateSlots tzdb fuel eng services db rows (some currentUser) body =
        some (⟨500, []⟩, rows)) ∧
    (∀ genReq service generatedSlots createdSlots r, ShouldBindJSON body = some genReq →
      services genReq.ServiceID businessID = .found service →
      generateTimeSlots tzdb fuel genReq service.Duration businessID db =
        some (.ok generatedSlots) →
      saveSlotsToDB eng rows generatedSlots = (.ok createdSlots, r) →
      GenerateSlots tzdb fuel eng services db rows (some currentUser) body =
        some (⟨201, createdSlots⟩, r)) ∧
    (∀ resp rowsAfter,
      GenerateSlots tzdb fuel eng services db rows (some currentUser) body =
        some (resp, rowsAfter) →
      (resp.status = 201 ↔ ∃ genReq service generatedSlots,
        ShouldBindJSON body = some genReq ∧
        services genReq.ServiceID businessID = .found service ∧
        generateTimeSlots tzdb fuel genReq service.Duration businessID db =
          some (.ok generatedSlots) ∧
        saveSlotsToDB eng rows generatedSlots = (.ok resp.slots, rowsAfter)) ∧
      (resp.status ≠ 201 → rowsAfter = rows)) := by
  refine ⟨?_, ?_, ?_, ?_, ?_, ?_⟩
  · intro h1
    unfold GenerateSlots
    simp only [hb, h1]
  · intro genReq h1 h2
    unfold GenerateSlots
    simp only [hb, h1, h2]
  · intro genReq service e h1 h2 h3
    unfold GenerateSlots
    simp only [hb, h1, h2, h3]
  · intro genReq service generatedSlots e r h1 h2 h3 h4
    have hr := saveSlotsToDB_error_rows eng rows r generatedSlots e h4
    unfold GenerateSlots
    simp only [hb, h1, h2, h3, h4, hr]
  · intro genReq service generatedSlots createdSlots r h1 h2 h3 h4
    unfold GenerateSlots
    simp only [hb, h1, h2, h3, h4]
  · intro resp rowsAfter h
    have := GenerateSlots_answer tzdb fuel eng services db rows rowsAfter currentUser businessID
      body resp hb h
    exact ⟨this.1, this.2.2.2.2.2⟩

/-- C11, witness: the owner of business 3 asks for slots of service 7 on Monday
2024-01-01; with an engine that accepts everything the answer is 201 with two
slots and two new rows, with an engine whose second insert fails the answer
is 500 and no row is added, and a body with interval 0 is answered 400. -/
theorem GenerateSlots_status_witness :
    GenerateSlots noZones 10 engOk oneService dbUTC [] (some owner) (some (bodyOf reqGap15)) =
      some (⟨201, createdGap15⟩, createdGap15.map toRow) ∧
    GenerateSlots noZones 10 engFailSecond oneService dbUTC [] (some owner) (some (bodyOf reqGap15)) =
      some (⟨500, []⟩, []) ∧
    GenerateSlots noZones 10 engOk oneService dbUTC [] (some owner) (some (bodyOf reqMonday)) =
      some (⟨400, []⟩, []) :=
  ⟨(GenerateSlots_status noZones 10 engOk oneService dbUTC [] owner 3 (some (bodyOf reqGap15))
      rfl).2.2.2.2.1 reqGap15 ⟨7, "cut", 30⟩
      [slotAt 1704099600000000000 1704101400000000000,
       slotAt 1704102300000000000 1704104100000000000] createdGap15 (createdGap15.map toRow)
      rfl rfl rfl rfl,
   (GenerateSlots_status noZones 10 engFailSecond oneService dbUTC [] owner 3 (some (bodyOf reqGap15))
      rfl).2.2.2.1 reqGap15 ⟨7, "cut", 30⟩
      [slotAt 1704099600000000000 1704101400000000000,
       slotAt 1704102300000000000 1704104100000000000] .insertFailed [] rfl rfl rfl rfl,
   (GenerateSlots_status noZones 10 engOk oneService dbUTC [] owner 3 (some (bodyOf reqMonday))
      rfl).1 rfl⟩

/-! ## C12: what binding checks of the interval -/

/-- C12, as amended: for a user with a business and a body whose other fields are
present, a request with interval 0 is answered 400 by binding, before the
service is looked up, and a request with a positive interval passes binding and
goes on to the service lookup and, when the service is found, to the synthesis
with the interval it carries: the answer is that of lookup, synthesis and
persistence. -/
theorem interval_at_binding (tzdb : String → Option Location) (fuel : Nat) (eng : Engine)
    (services : Int → Int → ServiceRow) (db : DB) (rows : List SlotRow)
    (currentUser : User) (businessID : Int) (decoded : DecodedBody)
    (hb : currentUser.BusinessID = some businessID)
    (h1 : decoded.genReq.ServiceID ≠ 0)
    (h2 : ¬ (decoded.genReq.StartDate = zeroTime ∧ decoded.startDateHasLoc = false))
    (h3 : ¬ (decoded.genReq.EndDate = zeroTime ∧ decoded.endDateHasLoc = false))
    (h4 : decoded.genReq.StartTime ≠ "") (h5 : decoded.genReq.EndTime ≠ "") :
    (decoded.genReq.Interval = 0 →
      ShouldBindJSON (some decoded) = none ∧
      GenerateSlots tzdb fuel eng services db rows (some currentUser) (some decoded) =
        some (⟨400, []⟩, rows)) ∧
    (0 < decoded.genReq.Interval →
      ShouldBindJSON (some decoded) = some decoded.genReq ∧
      GenerateSlots tzdb fuel eng services db rows (some currentUser) (some decoded) =
        match services decoded.genReq.ServiceID businessID with
        | .noRows => some (⟨404, []⟩, rows)
        | .failed => some (⟨500, []⟩, rows)
        | .found service =>
          match generateTimeSlots tzdb fuel decoded.genReq service.Duration businessID db with
          | none => none
          | some (.error _) => some (⟨400, []⟩, rows)
          | some (.ok generatedSlots) =>
            match saveSlotsToDB eng rows generatedSlots with
            | (.error _, rowsAfter) => some (⟨500, []⟩, rowsAfter)
            | (.ok createdSlots, rowsAfter) => some (⟨201, createdSlots⟩, rowsAfter)) := by
  constructor
  · intro hi
    have hbind : ShouldBindJSON (some decoded) = none := by
      unfold ShouldBindJSON
      simp [hi]
    refine ⟨hbind, ?_⟩
    unfold GenerateSlots
    simp only [hb, hbind]
  · intro hi
    have hne : decoded.genReq.Interval ≠ 0 := by omega
    have hbind : ShouldBindJSON (some decoded) = some decoded.genReq := by
      unfold ShouldBindJSON
      simp only
      rw [if_pos ⟨h1, h2, h3, h4, h5, hne⟩]
    refine ⟨hbind, ?_⟩
    unfold GenerateSlots
    simp only [hb, hbind]

/-- C12, witness: the owner of business 3 sends the request of Monday 2024-01-01
with a gap of 15 minutes; it passes binding and is answered 201 with the slots
at 09:00 and 09:45. The same request for a service that does not exist passes
binding too and is answered 404. -/
theorem interval_at_binding_witness :
    ShouldBindJSON (some (bodyOf reqGap15)) = some reqGap15 ∧
    GenerateSlots noZones 10 engOk oneService dbUTC [] (some owner) (some (bodyOf reqGap15)) =
      some (⟨201, createdGap15⟩, createdGap15.map toRow) ∧
    GenerateSlots noZones 10 engOk (fun _ _ => .noRows) dbUTC [] (some owner)
      (some (bodyOf reqGap15)) = some (⟨404, []⟩, []) :=
  ⟨((interval_at_binding noZones 10 engOk oneService dbUTC [] owner 3 (bodyOf reqGap15) rfl
      (by decide) (by decide) (by decide) (by decide) (by decide)).2 (by decide)).1,
   ((interval_at_binding noZones 10 engOk oneService dbUTC [] owner 3 (bodyOf reqGap15) rfl
      (by decide) (by decide) (by decide) (by decide) (by decide)).2 (by decide)).2,
   ((interval_at_binding noZones 10 engOk (fun _ _ => .noRows) dbUTC [] owner 3
      (bodyOf reqGap15) rfl (by decide) (by decide) (by decide) (by decide) (by decide)).2
      (by decide)).2⟩

/-- C12, as stated, fails: a request with interval 0 and every other field
present does not pass binding, although 0 is not negative, and the handler
answers it 400. -/
theorem binding_rejects_zero_interval :
    (¬ ∀ decoded : DecodedBody, decoded.genReq.ServiceID ≠ 0 →
        ¬ (decoded.genReq.StartDate = zeroTime ∧ decoded.startDateHasLoc = false) →
        ¬ (decoded.genReq.EndDate = zeroTime ∧ decoded.endDateHasLoc = false) →
        decoded.genReq.StartTime ≠ "" → decoded.genReq.EndTime ≠ "" →
        ((ShouldBindJSON (some decoded)).isSome = true ↔ 0 ≤ decoded.genReq.Interval)) ∧
    (ShouldBindJSON (some (bodyOf reqMonday))).isSome = false ∧ 0 ≤ reqMonday.Interval ∧
    GenerateSlots noZones 10 engOk oneService dbUTC [] (some owner) (some (bodyOf reqMonday)) =
      some (⟨400, []⟩, []) := by
  refine ⟨?_, by decide, by decide, rfl⟩
  intro hall
  have := (hall (bodyOf reqMonday) (by decide) (by decide) (by decide) (by decide)
    (by decide)).2 (by decide)
  revert this
  decide

/-! ## C13: a window that ends before it starts -/

/-- In a location whose offset never changes, with a window whose end is not
after its start, the outer loop returns the empty sequence once it has fuel for
all days. -/
theorem dayLoop_empty_window (offset : Int) (req : GenerateSlotsRequest) (d b : Int)
    (st et : String) (endDate : Int) (n : Nat) (sc ec : Int)
    (hs : parseClock st.data = some sc) (he : parseClock et.data = some ec) (hle : ec ≤ sc) :
    ∀ (fuel : Nat) (cur : Int), endDate - cur ≤ fuel * day →
      dayLoop (fixedZone offset) req d b st et endDate (n + 1) (fuel + 1) cur = some (.ok []) := by
  have hdaypos : (0 : Int) < day := by decide
  intro fuel
  induction fuel with
  | zero =>
    intro cur h
    simp only [Nat.cast_zero, zero_mul] at h
    simp only [dayLoop]
    rw [if_neg (by omega)]
  | succ f ih =>
    intro cur h
    push_cast at h
    have hrec := ih (AddDate1 (fixedZone offset) cur) (by rw [AddDate1_fixedZone]; linarith)
    rw [dayLoop]
    by_cases hc : cur < endDate
    · rw [if_pos hc]
      by_cases hw : Weekday (fixedZone offset) cur = 0
      · rw [if_pos hw]
        exact hrec
      · rw [if_neg hw, hrec]
        unfold ParseInLocation
        simp only [hs, he, slotLoop, fromWall_fixedZone]
        rw [if_neg (by omega)]
        simp only [List.nil_append]
    · rw [if_neg hc]

/-- C13, as amended: in a business location whose offset does not change over
the range of the request, when both times of day parse and the start is not
before the end, `generateTimeSlots` returns the empty sequence and no error, for
every service duration and every fuel above the number of days of the range. -/
theorem empty_window_gives_no_slots (tzdb : String → Option Location) (fuel : Nat)
    (req : GenerateSlotsRequest) (serviceDuration businessID : Int) (db : DB) (sc ec : Int)
    (offset : Int)
    (hzone : offsetConstant (businessLocation tzdb db businessID) offset req)
    (hs : parseClock (withSeconds req.StartTime).data = some sc)
    (he : parseClock (withSeconds req.EndTime).data = some ec) (hle : ec ≤ sc)
    (hfuel : ((Truncate24h req.EndDate + day - Truncate24h req.StartDate) / day).toNat + 1 <
      fuel) :
    generateTimeSlots tzdb fuel req serviceDuration businessID db = some (.ok []) := by
  have hd : day = 86400000000000 := by decide
  rw [generateTimeSlots_eq_fixedZone tzdb fuel req serviceDuration businessID db offset hzone]
  obtain ⟨f, rfl⟩ : ∃ f, fuel = f + 1 := ⟨fuel - 1, by omega⟩
  apply dayLoop_empty_window offset req serviceDuration businessID _ _ _ f sc ec hs he hle
  generalize Truncate24h req.EndDate + day - Truncate24h req.StartDate = w at hfuel
  have hq : ((w / day).toNat : Int) + 1 ≤ f := by omega
  have hw : w < (w / day + 1) * day := by rw [hd]; omega
  have hpos : (0 : Int) < day := by decide
  by_cases hneg : 0 ≤ w / day
  · have : ((w / day).toNat : Int) = w / day := Int.toNat_of_nonneg hneg
    nlinarith
  · have : w < 0 := by
      by_contra hcon
      exact hneg (Int.ediv_nonneg (by omega) (le_of_lt hpos))
    have : 0 ≤ (f : Int) * day := mul_nonneg (Int.ofNat_nonneg f) (le_of_lt hpos)
    omega

/-- C13, witness: Monday 2024-01-01 to Tuesday 2024-01-02 in Jerusalem, two hours
east of UTC in January, with the window from 10:00 back to 09:00. -/
theorem empty_window_gives_no_slots_witness :
    generateTimeSlots sampleZones 10
      { reqJanuary with StartTime := "10:00", EndTime := "09:00" } 30 3 dbJerusalem =
      some (.ok []) :=
  empty_window_gives_no_slots sampleZones 10
    { reqJanuary with StartTime := "10:00", EndTime := "09:00" } 30 3 dbJerusalem
    36000000000000 32400000000000 7200 jerusalem_in_january rfl rfl (by decide) (by decide)

/-- C13, as stated, fails: in Jerusalem on Friday 2024-03-29 the end time 02:30
falls in the hour that the transition skips and `time.ParseInLocation` resolves
it to 03:30 local, after the start time 03:15; the run returns the slot from
00:15 to 00:30 UTC although `start_time` is later than `end_time`, whatever the
fuel. -/
theorem empty_window_filled_at_transition :
    ¬ ∀ (tzdb : String → Option Location) (req : GenerateSlotsRequest)
        (serviceDuration businessID : Int) (db : DB) (sc ec : Int),
        parseClock (withSeconds req.StartTime).data = some sc →
        parseClock (withSeconds req.EndTime).data = some ec → ec ≤ sc →
        ∃ fuel, generateTimeSlots tzdb fuel req serviceDuration businessID db =
          some (.ok []) := by
  intro hall
  obtain ⟨fuel, h⟩ := hall sampleZones reqJerusalem 15 3 dbJerusalem 11700000000000
    9000000000000 rfl rfl (by decide)
  have hloc : businessLocation sampleZones dbJerusalem 3 = jerusalem := rfl
  unfold generateTimeSlots at h
  simp only [hloc] at h
  cases fuel with
  | zero => simp [dayLoop] at h
  | succ f =>
    rw [dayLoop] at h
    rw [if_pos (by decide), if_neg (by decide)] at h
    have hs : ParseInLocation jerusalem (localDay jerusalem (Truncate24h reqJerusalem.StartDate))
        (withSeconds reqJerusalem.StartTime) = some 1711671300000000000 := rfl
    have he : ParseInLocation jerusalem (localDay jerusalem (Truncate24h reqJerusalem.StartDate))
        (withSeconds reqJerusalem.EndTime) = some 1711672200000000000 := rfl
    rw [hs, he] at h
    simp only at h
    rw [slotLoop] at h
    rw [if_pos (by decide), if_neg (by decide)] at h
    cases hrec : slotLoop reqJerusalem 15 3 1711672200000000000 f
        (1711671300000000000 + minutes (intAdd reqJerusalem.Interval 15)) with
    | none => rw [hrec] at h; cases h
    | some rest =>
      rw [hrec] at h
      simp only at h
      cases hday : dayLoop jerusalem reqJerusalem 15 3 (withSeconds reqJerusalem.StartTime)
          (withSeconds reqJerusalem.EndTime) (Truncate24h reqJerusalem.EndDate + day) (f + 1) f
          (AddDate1 jerusalem (Truncate24h reqJerusalem.StartDate)) with
      | none => rw [hday] at h; cases h
      | some r =>
        rw [hday] at h
        cases r with
        | error e => cases h
        | ok more => simp at h

/-! ## C14: `HH:MM` and `HH:MM:00` -/

/-- The inner loop reads of the request only the service and the interval. -/
theorem slotLoop_congr (req req2 : GenerateSlotsRequest) (d b e : Int)
    (h1 : req.ServiceID = req2.ServiceID) (h2 : req.Interval = req2.Interval) :
    ∀ (fuel : Nat) (cur : Int), slotLoop req d b e fuel cur = slotLoop req2 d b e fuel cur := by
  intro fuel
  induction fuel with
  | zero => intro cur; rfl
  | succ k ih =>
    intro cur
    simp only [slotLoop, h1, h2, ih]

/-- The outer loop reads of the request only the service and the interval. -/
theorem dayLoop_congr (loc : Location) (req req2 : GenerateSlotsRequest) (d b : Int)
    (st et : String) (endDate : Int) (n : Nat)
    (h1 : req.ServiceID = req2.ServiceID) (h2 : req.Interval = req2.Interval) :
    ∀ (fuel : Nat) (cur : Int), dayLoop loc req d b st et endDate n fuel cur =
      dayLoop loc req2 d b st et endDate n fuel cur := by
  intro fuel
  induction fuel with
  | zero => intro cur; rfl
  | succ k ih =>
    intro cur
    rw [dayLoop, dayLoop]
    simp only [ih, slotLoop_congr req req2 d b _ h1 h2]

theorem isDigit_ne_colon (c : Char) (h : isDigit c = true) : c ≠ ':' := by
  intro hc
  rw [hc] at h
  revert h
  decide

/-- A text of the form `HH:MM` holds one colon. -/
theorem wellFormedHHMM_one_colon (t : String) (h : wellFormedHHMM t = true) :
    t.data.count ':' = 1 := by
  unfold wellFormedHHMM at h
  split at h
  · rename_i h1 h2 c m1 m2 heq
    simp only [Bool.and_eq_true, decide_eq_true_eq] at h
    obtain ⟨⟨⟨⟨⟨⟨d1, d2⟩, hc⟩, d3⟩, d4⟩, _⟩, _⟩ := h
    rw [heq, hc]
    have n1 := isDigit_ne_colon h1 d1
    have n2 := isDigit_ne_colon h2 d2
    have n3 := isDigit_ne_colon m1 d3
    have n4 := isDigit_ne_colon m2 d4
    simp [List.count_cons, n1, n2, n3, n4]
  · cases h

/-- A text with one colon and the same text followed by `:00` are normalised to
the same text. -/
theorem withSeconds_one_colon (t : String) (h : t.data.count ':' = 1) :
    withSeconds t = t ++ ":00" ∧ withSeconds (t ++ ":00") = t ++ ":00" := by
  unfold withSeconds
  constructor
  · rw [if_pos h]
  · have : (t ++ ":00").data.count ':' = 2 := by
      rw [String.data_append, List.count_append, h]
      rfl
    rw [if_neg (by omega)]

/-- C14: for every text `t` of the form `HH:MM`, `generateTimeSlots` returns the
same with `start_time` `t` as with `t` followed by `:00`, and the same with
`end_time` `t` as with `t` followed by `:00`, everything else being equal. -/
theorem hhmm_same_as_hhmmss (tzdb : String → Option Location) (fuel : Nat)
    (req : GenerateSlotsRequest) (serviceDuration businessID : Int) (db : DB) (t : String)
    (ht : wellFormedHHMM t = true) :
    generateTimeSlots tzdb fuel { req with StartTime := t } serviceDuration businessID db =
      generateTimeSlots tzdb fuel { req with StartTime := t ++ ":00" } serviceDuration
        businessID db ∧
    generateTimeSlots tzdb fuel { req with EndTime := t } serviceDuration businessID db =
      generateTimeSlots tzdb fuel { req with EndTime := t ++ ":00" } serviceDuration
        businessID db := by
  have hw := withSeconds_one_colon t (wellFormedHHMM_one_colon t ht)
  unfold generateTimeSlots
  simp only [hw.1, hw.2]
  constructor
  · exact dayLoop_congr _ { req with StartTime := t } { req with StartTime := t ++ ":00" }
      _ _ _ _ _ _ rfl rfl _ _
  · exact dayLoop_congr _ { req with EndTime := t } { req with EndTime := t ++ ":00" }
      _ _ _ _ _ _ rfl rfl _ _

/-- C14, witness: `09:00` against `09:00:00` as start time, and as end time. -/
theorem hhmm_same_as_hhmmss_witness :
    wellFormedHHMM "09:00" = true ∧
    generateTimeSlots noZones 10 { reqMonday with StartTime := "09:00" } 30 3 dbUTC =
      generateTimeSlots noZones 10 { reqMonday with StartTime := "09:00" ++ ":00" } 30 3 dbUTC ∧
    generateTimeSlots noZones 10 { reqMonday with EndTime := "09:00" } 30 3 dbUTC =
      generateTimeSlots noZones 10 { reqMonday with EndTime := "09:00" ++ ":00" } 30 3 dbUTC :=
  ⟨by decide, hhmm_same_as_hhmmss noZones 10 reqMonday 30 3 dbUTC "09:00" (by decide)⟩

/-! ## C15: the fields of a generated slot -/

/-- C15: every slot of a successful run of `generateTimeSlots` is available,
belongs to the service of the request and to the business passed in, and has
`ID` zero. -/
theorem generated_slot_fields (tzdb : String → Option Location) (fuel : Nat)
    (req : GenerateSlotsRequest) (serviceDuration businessID : Int) (db : DB)
    (slots : List TimeSlot)
    (h : generateTimeSlots tzdb fuel req serviceDuration businessID db = some (.ok slots)) :
    ∀ s ∈ slots, s.IsAvailable = true ∧ s.ServiceID = req.ServiceID ∧
      s.BusinessID = businessID ∧ s.ID = 0 := by
  unfold generateTimeSlots at h
  refine dayLoop_forall _ req serviceDuration businessID _ _ _ fuel
    (fun s => s.IsAvailable = true ∧ s.ServiceID = req.ServiceID ∧
      s.BusinessID = businessID ∧ s.ID = 0) ?_ fuel _ slots h
  intro cur sdt edt daySlots _ _ _ _ hl s hs
  have hm := slotLoop_mem req serviceDuration businessID edt fuel sdt daySlots hl s hs
  exact ⟨hm.2.2.2.2.1, hm.2.2.2.2.2.1, hm.2.2.2.2.2.2, hm.2.2.2.1⟩

/-- C15, witness: the four slots of Monday 2024-01-01 for service 7 of business
3. -/
theorem generated_slot_fields_witness :
    generateTimeSlots noZones 10 reqMonday 30 3 dbUTC = some (.ok
      [slotAt 1704099600000000000 1704101400000000000,
       slotAt 1704101400000000000 1704103200000000000,
       slotAt 1704103200000000000 1704105000000000000,
       slotAt 1704105000000000000 1704106800000000000]) ∧
    ∀ s ∈ [slotAt 1704099600000000000 1704101400000000000,
           slotAt 1704101400000000000 1704103200000000000,
           slotAt 1704103200000000000 1704105000000000000,
           slotAt 1704105000000000000 1704106800000000000],
      s.IsAvailable = true ∧ s.ServiceID = reqMonday.ServiceID ∧ s.BusinessID = 3 ∧ s.ID = 0 :=
  ⟨rfl, generated_slot_fields noZones 10 reqMonday 30 3 dbUTC _ rfl⟩

/-! ## C16: termination -/

/-- With a step that is not positive the walk of a window that fits one slot
never returns, whatever the fuel. -/
theorem slotLoop_none_of_step_nonpos (req : GenerateSlotsRequest) (d b e : Int)
    (hstep : minutes (intAdd req.Interval d) ≤ 0) :
    ∀ (fuel : Nat) (cur : Int), cur < e → cur + minutes d ≤ e →
      slotLoop req d b e fuel cur = none := by
  intro fuel
  induction fuel with
  | zero => intro cur _ _; rfl
  | succ k ih =>
    intro cur h1 h2
    simp only [slotLoop]
    rw [if_pos h1, if_neg (by omega)]
    rw [ih (cur + minutes (intAdd req.Interval d)) (by omega) (by omega)]

/-- The walk of a window returns once the fuel times the step covers the
window. -/
theorem slotLoop_terminates (req : GenerateSlotsRequest) (d b e : Int) :
    ∀ (fuel : Nat) (cur : Int), e - cur ≤ fuel * minutes (intAdd req.Interval d) →
      ∃ l, slotLoop req d b e (fuel + 1) cur = some l := by
  intro fuel
  induction fuel with
  | zero =>
    intro cur h
    simp only [Nat.cast_zero, zero_mul] at h
    simp only [slotLoop]
    rw [if_neg (by omega)]
    exact ⟨_, rfl⟩
  | succ k ih =>
    intro cur h
    push_cast at h
    obtain ⟨l, hl⟩ := ih (cur + minutes (intAdd req.Interval d)) (by linarith)
    rw [slotLoop]
    by_cases h1 : cur < e
    · rw [if_pos h1]
      by_cases h2 : cur + minutes d > e
      · simp only [if_pos h2]
        exact ⟨_, rfl⟩
      · simp only [if_neg h2, hl]
        exact ⟨_, rfl⟩
    · rw [if_neg h1]
      exact ⟨_, rfl⟩

/-- In a location whose offset never changes, when every day's walk returns, the
outer loop returns once the fuel covers the days up to the end date. -/
theorem dayLoop_terminates (offset : Int) (req : GenerateSlotsRequest) (d b : Int)
    (st et : String) (endDate : Int) (n : Nat)
    (hinner : ∀ (dayNo sdt edt : Int), ParseInLocation (fixedZone offset) dayNo st = some sdt →
      ParseInLocation (fixedZone offset) dayNo et = some edt →
      ∃ l, slotLoop req d b edt n sdt = some l) :
    ∀ (fuel : Nat) (cur : Int), endDate - cur ≤ fuel * day →
      ∃ r, dayLoop (fixedZone offset) req d b st et endDate n (fuel + 1) cur = some r := by
  have hdaypos : (0 : Int) < day := by decide
  intro fuel
  induction fuel with
  | zero =>
    intro cur h
    simp only [Nat.cast_zero, zero_mul] at h
    simp only [dayLoop]
    rw [if_neg (by omega)]
    exact ⟨_, rfl⟩
  | succ f ih =>
    intro cur h
    push_cast at h
    obtain ⟨r, hr⟩ := ih (AddDate1 (fixedZone offset) cur)
      (by rw [AddDate1_fixedZone]; linarith)
    rw [dayLoop]
    by_cases hc : cur < endDate
    · rw [if_pos hc]
      by_cases hw : Weekday (fixedZone offset) cur = 0
      · rw [if_pos hw]
        exact ⟨r, hr⟩
      · rw [if_neg hw, hr]
        cases hs : ParseInLocation (fixedZone offset) (localDay (fixedZone offset) cur) st with
        | none => exact ⟨_, rfl⟩
        | some sdt =>
          cases he : ParseInLocation (fixedZone offset) (localDay (fixedZone offset) cur) et with
          | none => exact ⟨_, rfl⟩
          | some edt =>
            obtain ⟨l, hl⟩ := hinner _ sdt edt hs he
            simp only [hl]
            cases r with
            | error e => exact ⟨_, rfl⟩
            | ok rest => exact ⟨_, rfl⟩
    · rw [if_neg hc]
      exact ⟨_, rfl⟩

/-- C16, as amended: for a service duration of at least one minute and a gap
that is not negative whose sum in minutes fits a `time.Duration`, in a business
location whose offset does not change over the range of the request, whatever
the dates and the times of day, `generateTimeSlots` returns (a sequence or an
error) for every fuel of at least 1441, the most steps a day's walk can take plus
one, that is above the number of days of the range. -/
theorem generateTimeSlots_terminates (tzdb : String → Option Location) (fuel : Nat)
    (req : GenerateSlotsRequest) (serviceDuration businessID : Int) (db : DB) (offset : Int)
    (hd : 1 ≤ serviceDuration) (hg : 0 ≤ req.Interval)
    (hfit : Minute * (serviceDuration + req.Interval) < 9223372036854775808)
    (hzone : offsetConstant (businessLocation tzdb db businessID) offset req)
    (hwalk : 1441 ≤ fuel)
    (hdays : ((Truncate24h req.EndDate + day - Truncate24h req.StartDate) / day).toNat + 1 <
      fuel) :
    ∃ r, generateTimeSlots tzdb fuel req serviceDuration businessID db = some r := by
  have hM : Minute = 60000000000 := by decide
  have hD : day = 86400000000000 := by decide
  have hstep := step_of_range req.Interval serviceDuration (by rw [hM]; omega) hfit
  rw [generateTimeSlots_eq_fixedZone tzdb fuel req serviceDuration businessID db offset hzone]
  obtain ⟨f, rfl⟩ : ∃ f, fuel = f + 1 := ⟨fuel - 1, by omega⟩
  apply dayLoop_terminates
  · intro dayNo sdt edt hs he
    apply slotLoop_terminates
    unfold ParseInLocation at hs he
    cases hcs : parseClock (withSeconds req.StartTime).data with
    | none => rw [hcs] at hs; cases hs
    | some sc =>
      cases hce : parseClock (withSeconds req.EndTime).data with
      | none => rw [hce] at he; cases he
      | some ec =>
        rw [hcs] at hs
        rw [hce] at he
        simp only [Option.some.injEq, fromWall_fixedZone] at hs he
        subst hs
        subst he
        have b1 := parseClock_bounds _ _ hcs
        have b2 := parseClock_bounds _ _ hce
        rw [hstep]
        rw [hD] at b1 b2
        have hf : (1440 : Int) ≤ f := by omega
        have hst : (60000000000 : Int) ≤ (serviceDuration + req.Interval) * Minute := by
          rw [hM]; omega
        nlinarith
  · generalize Truncate24h req.EndDate + day - Truncate24h req.StartDate = w at hdays
    have hq : ((w / day).toNat : Int) + 1 ≤ f := by omega
    have hw : w < (w / day + 1) * day := by rw [hD]; omega
    have hpos : (0 : Int) < day := by decide
    by_cases hneg : 0 ≤ w / day
    · have : ((w / day).toNat : Int) = w / day := Int.toNat_of_nonneg hneg
      nlinarith
    · have : w < 0 := by
        by_contra hcon
        exact hneg (Int.ediv_nonneg (by omega) (le_of_lt hpos))
      have : 0 ≤ (f : Int) * day := mul_nonneg (Int.ofNat_nonneg f) (le_of_lt hpos)
      omega

/-- C16, witness: Monday 2024-01-01 to Tuesday 2024-01-02 in Jerusalem, two hours
east of UTC in January, 09:00 to 10:00, half an hour with a gap of 15 minutes,
returns with fuel 1441. -/
theorem generateTimeSlots_terminates_witness :
    ∃ r, generateTimeSlots sampleZones 1441 reqJanuary 30 3 dbJerusalem = some r :=
  generateTimeSlots_terminates sampleZones 1441 reqJanuary 30 3 dbJerusalem 7200 (by decide)
    (by decide) (by decide) jerusalem_in_january (by decide) (by decide)

/-- The cursor 1844-12-31T00:00:00Z does not move under `AddDate(0, 0, 1)` in
Manila, so the outer loop never returns from it. -/
theorem dayLoop_manila_stuck (n : Nat) :
    ∀ fuel : Nat, dayLoop manila reqManila 30 3 (withSeconds reqManila.StartTime)
      (withSeconds reqManila.EndTime) (Truncate24h reqManila.EndDate + day) n fuel
      (Truncate24h reqManila.StartDate) = none := by
  have hadd : AddDate1 manila (Truncate24h reqManila.StartDate) =
      Truncate24h reqManila.StartDate := by decide
  intro fuel
  induction fuel with
  | zero => rfl
  | succ f ih =>
    rw [dayLoop]
    rw [if_pos (by decide), if_neg (by decide), hadd, ih]
    obtain ⟨sdt, hs⟩ : ∃ sdt, ParseInLocation manila
        (localDay manila (Truncate24h reqManila.StartDate))
        (withSeconds reqManila.StartTime) = some sdt := ⟨_, rfl⟩
    obtain ⟨edt, he⟩ : ∃ edt, ParseInLocation manila
        (localDay manila (Truncate24h reqManila.StartDate))
        (withSeconds reqManila.EndTime) = some edt := ⟨_, rfl⟩
    rw [hs, he]
    simp only
    cases slotLoop reqManila 30 3 edt n sdt with
    | none => rfl
    | some l => rfl

/-- C16, as stated, fails, and so does each half of the amendment alone. In UTC,
with a service of one minute and a gap of 153722867 minutes, the step
`time.Minute * time.Duration(interval + duration)` wraps to a negative duration
of about 292 years, the slot cursor moves back instead of forward, and the walk
of Monday 2024-01-01, 09:00 to 10:00, never leaves the window. In Manila, from
the start date 1844-12-31T00:00:00Z, the local day after 1844-12-30 does not
exist, `AddDate(0, 0, 1)` returns the instant it was given, and the day cursor
never reaches the end date. In both cases no fuel makes the run return. -/
theorem never_returns_on_wrap_or_skipped_day :
    (¬ ∀ (tzdb : String → Option Location) (req : GenerateSlotsRequest)
        (serviceDuration businessID : Int) (db : DB),
        1 ≤ serviceDuration → 0 ≤ req.Interval →
        (parseClock (withSeconds req.StartTime).data).isSome = true →
        (parseClock (withSeconds req.EndTime).data).isSome = true →
        ∃ fuel r, generateTimeSlots tzdb fuel req serviceDuration businessID db = some r) ∧
    (¬ ∀ (tzdb : String → Option Location) (req : GenerateSlotsRequest)
        (serviceDuration businessID : Int) (db : DB) (offset : Int),
        1 ≤ serviceDuration → 0 ≤ req.Interval →
        offsetConstant (businessLocation tzdb db businessID) offset req →
        ∃ fuel r, generateTimeSlots tzdb fuel req serviceDuration businessID db = some r) ∧
    (¬ ∀ (tzdb : String → Option Location) (req : GenerateSlotsRequest)
        (serviceDuration businessID : Int) (db : DB),
        1 ≤ serviceDuration → 0 ≤ req.Interval →
        Minute * (serviceDuration + req.Interval) < 9223372036854775808 →
        ∃ fuel r, generateTimeSlots tzdb fuel req serviceDuration businessID db = some r) := by
  have hwrap : ∀ fuel, generateTimeSlots noZones fuel reqStepBack 1 3 dbUTC = none := by
    intro fuel
    have hloc : businessLocation noZones dbUTC 3 = UTC := rfl
    unfold generateTimeSlots
    simp only [hloc]
    cases fuel with
    | zero => rfl
    | succ f =>
      rw [dayLoop]
      rw [if_pos (by decide), if_neg (by decide)]
      have hs : ParseInLocation UTC (localDay UTC (Truncate24h reqStepBack.StartDate))
          (withSeconds reqStepBack.StartTime) = some 1704099600000000000 := rfl
      have he : ParseInLocation UTC (localDay UTC (Truncate24h reqStepBack.StartDate))
          (withSeconds reqStepBack.EndTime) = some 1704103200000000000 := rfl
      rw [hs, he]
      simp only
      rw [slotLoop_none_of_step_nonpos reqStepBack 1 3 1704103200000000000 (by decide) (f + 1)
        1704099600000000000 (by decide) (by decide)]
  have hmanila : ∀ fuel, generateTimeSlots sampleZones fuel reqManila 30 3 dbManila = none := by
    intro fuel
    have hloc : businessLocation sampleZones dbManila 3 = manila := rfl
    unfold generateTimeSlots
    simp only [hloc]
    exact dayLoop_manila_stuck fuel fuel
  refine ⟨?_, ?_, ?_⟩
  · intro hall
    obtain ⟨fuel, r, h⟩ := hall noZones reqStepBack 1 3 dbUTC (by decide) (by decide)
      (by decide) (by decide)
    rw [hwrap fuel] at h
    cases h
  · intro hall
    obtain ⟨fuel, r, h⟩ := hall noZones reqStepBack 1 3 dbUTC 0 (by decide) (by decide)
      ⟨by decide, by decide, fun _ _ _ => rfl⟩
    rw [hwrap fuel] at h
    cases h
  · intro hall
    obtain ⟨fuel, r, h⟩ := hall sampleZones reqManila 30 3 dbManila (by decide) (by decide)
      (by decide)
    rw [hmanila fuel] at h
    cases h


end Booking
